import Mathlib

set_option linter.unusedSectionVars false

/-!
Shallow embedding of the open-ecg-generator signal-synthesis engine.

The TypeScript sources embedded here are:
  * src/packages/core/math/ode-solver.ts   (adaptive Dormand-Prince RK45 solver)
  * src/packages/core/models/ecgsyn.ts     (ECGSYN model, default parameters,
                                            basic pathology transforms)
  * src/packages/core/models/ecgsyn-enhanced.ts (enhanced pathology transforms)
  * src/ECGGenerator.ts                    (generator class: generate,
                                            generateMultiLead, generateStream,
                                            noise and post-processing passes)

Modelling conventions:
  * JavaScript numbers are modelled by a linear ordered field (instantiated at
    the real numbers for the authoritative semantics; auxiliary rational
    instantiations are used where a concrete evaluation is needed and the
    value in question only involves field operations).
  * Calls to the JavaScript Math library (sqrt, pow, exp, atan2, sin, cos,
    log, PI) are collected in a MathOps record; realOps instantiates them
    with the corresponding real functions.
  * Math.random() is modelled by an explicit stream (rng : Nat -> number)
    together with a cursor index threaded through the computation in source
    evaluation order.
  * The unbounded while-loops of the source (the adaptive stepping loop and
    the irregular-rhythm resampling loop) are modelled with an explicit fuel
    parameter; when fuel runs out the partially built result is returned.
    All theorems below either hold for every fuel or quantify over it.
  * Division is the total field division of Lean (x / 0 = 0), whereas
    JavaScript produces Infinity/NaN.  The only code path where a division by
    zero can occur is the degenerate timePoints = 1 resampling grid; no claim
    depends on the value produced there.
-/

namespace ECG

variable {α : Type} [LinearOrderedField α] [FloorRing α]

/-- JavaScript truncation toward zero (used by the remainder operator). -/
def jsTrunc (x : α) : ℤ := if x < 0 then ⌈x⌉ else ⌊x⌋

/-- JavaScript remainder operator x % y: x - y * trunc(x / y). -/
def jsMod (x y : α) : α := x - y * (jsTrunc (x / y) : α)

/-- Record of the Math-library functions the engine calls. -/
structure MathOps (α : Type) where
  sqrt : α → α
  powf : α → α → α
  exp : α → α
  atan2 : α → α → α
  sin : α → α
  cos : α → α
  log : α → α
  pi : α

/-- The authoritative instantiation: JavaScript numbers as real numbers and
the Math library as the corresponding real functions (atan2 y x is the
argument of the complex number x + iy, valued in (-pi, pi]).  This is exact
only while every intermediate value is an ordinary real: in particular powf
is the real power, which is finite at negative bases where Math.pow
returns NaN, so the NaN-producing regime of the step-size control under a
negative tolerance is settled separately over the explicit IEEE value type
JsVal below, never through realOps. -/
noncomputable def realOps : MathOps ℝ where
  sqrt := Real.sqrt
  powf := fun x y => Real.rpow x y
  exp := Real.exp
  atan2 := fun y x => Complex.arg ⟨x, y⟩
  sin := Real.sin
  cos := Real.cos
  log := Real.log
  pi := Real.pi

/-! ### ode-solver.ts -/

/-- Dormand-Prince nodes (const DP_A). -/
def DP_A (α : Type) [LinearOrderedField α] : List α :=
  [0, 1/5, 3/10, 4/5, 8/9, 1, 1]

/-- Dormand-Prince stage weights (const DP_B). -/
def DP_B (α : Type) [LinearOrderedField α] : List (List α) :=
  [[],
   [1/5],
   [3/40, 9/40],
   [44/45, -56/15, 32/9],
   [19372/6561, -25360/2187, 64448/6561, -212/729],
   [9017/3168, -355/33, 46732/5247, 49/176, -5103/18656],
   [35/384, 0, 500/1113, 125/192, -2187/6784, 11/84]]

/-- Fifth-order combination weights (const DP_C5). -/
def DP_C5 (α : Type) [LinearOrderedField α] : List α :=
  [35/384, 0, 500/1113, 125/192, -2187/6784, 11/84, 0]

/-- Fourth-order combination weights (const DP_C4). -/
def DP_C4 (α : Type) [LinearOrderedField α] : List α :=
  [5179/57600, 0, 7571/16695, 393/640, -92097/339200, 187/2100, 1/40]

/-- Componentwise acc[j] + c * v[j], the inner accumulation of rk45Step. -/
def axpyList (c : α) (v acc : List α) : List α :=
  List.zipWith (fun a b => a + c * b) acc v

/-- Weighted stage combination: y[j] + h * sum over (w, k) of w * k[j].
Used both for the intermediate stage states (rows of DP_B) and for the
fifth/fourth order estimates (DP_C5 and DP_C4). -/
def stageY (h : α) (row : List α) (ks : List (List α)) (y : List α) : List α :=
  (row.zip ks).foldl (fun acc bk => axpyList (h * bk.1) bk.2 acc) y

/-- Computes the seven stage derivatives k1..k7 of rk45Step. -/
def rk45Stages (f : α → List α → List α) (t : α) (y : List α) (h : α) :
    List (List α) :=
  let k1 := f t y
  [1, 2, 3, 4, 5, 6].foldl
    (fun ks i =>
      let tNew := t + (DP_A α).getD i 0 * h
      let yNew := stageY h ((DP_B α).getD i []) ks y
      ks ++ [f tNew yNew])
    [k1]

/-- Single RK45 step (function rk45Step): returns the fifth-order estimate,
the fourth-order estimate and the componentwise absolute difference. -/
def rk45Step (f : α → List α → List α) (t : α) (y : List α) (h : α) :
    List α × List α × List α :=
  let ks := rk45Stages f t y h
  let y5 := stageY h (DP_C5 α) ks y
  let y4 := stageY h (DP_C4 α) ks y
  let error := List.zipWith (fun a b => |a - b|) y5 y4
  (y5, y4, error)

/-- Error magnitude of solveODE (line 85):
sqrt of the sum of squares, divided by the vector length. -/
def errorNormOf (ops : MathOps α) (error : List α) : α :=
  ops.sqrt (error.foldl (fun s e => s + e * e) 0) / (error.length : α)

/-- Mutable state of the adaptive stepping loop of solveODE. -/
structure SolveState (α : Type) where
  currentT : α
  currentY : List α
  stepSize : α
  tResult : List α
  yResult : List (List α)

/-- One iteration of the adaptive while-loop of solveODE (lines 75-105):
clamp the step at tf, take an RK45 step, then accept (advancing time and
state, recording the point and growing the step when the error is positive)
or reject (shrinking the step). -/
def solveStepIter (ops : MathOps α) (f : α → List α → List α)
    (tf tolerance minStepSize maxStep : α) (st : SolveState α) : SolveState α :=
  let stepSize := if st.currentT + st.stepSize > tf then tf - st.currentT
                  else st.stepSize
  let r := rk45Step f st.currentT st.currentY stepSize
  let errorNorm := errorNormOf ops r.2.2
  if errorNorm < tolerance ∨ stepSize ≤ minStepSize then
    let newT := st.currentT + stepSize
    let newStep :=
      if errorNorm > 0 then
        min maxStep (stepSize * min 2 (9/10 * ops.powf (tolerance / errorNorm) (1/5)))
      else stepSize
    ⟨newT, r.1, newStep, st.tResult ++ [newT], st.yResult ++ [r.1]⟩
  else
    let newStep :=
      max minStepSize (stepSize * max (1/10) (9/10 * ops.powf (tolerance / errorNorm) (1/4)))
    ⟨st.currentT, st.currentY, newStep, st.tResult, st.yResult⟩

/-- The adaptive while-loop, with fuel; on fuel exhaustion the partially
built trajectory is returned. -/
def solveLoop (ops : MathOps α) (f : α → List α → List α)
    (tf tolerance minStepSize maxStep : α) :
    ℕ → SolveState α → SolveState α
  | 0, st => st
  | fuel + 1, st =>
      if st.currentT < tf then
        solveLoop ops f tf tolerance minStepSize maxStep fuel
          (solveStepIter ops f tf tolerance minStepSize maxStep st)
      else st

/-- Index scan of interpolateMulti: advance i while tOriginal[i+1] < t. -/
def bracketIdx (t : α) : List α → ℕ
  | _ :: b :: rest => if b < t then 1 + bracketIdx t (b :: rest) else 0
  | _ => 0

/-- One interpolated state vector of interpolateMulti. -/
def interpOne (tOrig : List α) (yOrig : List (List α)) (t : α) : List α :=
  let i := bracketIdx t tOrig
  if i = tOrig.length - 1 then yOrig.getD i []
  else if tOrig.getD i 0 = t then yOrig.getD i []
  else
    let t0 := tOrig.getD i 0
    let t1 := tOrig.getD (i + 1) 0
    let a := (t - t0) / (t1 - t0)
    List.zipWith (fun v0 v1 => v0 + a * (v1 - v0)) (yOrig.getD i [])
      (yOrig.getD (i + 1) [])

/-- Componentwise linear resampling (function interpolateMulti). -/
def interpolateMulti (tOrig : List α) (yOrig : List (List α))
    (tNew : List α) : List (List α) :=
  tNew.map (interpOne tOrig yOrig)

/-- Options record of solveODE.  timePoints is integer valued in every use;
params is not modelled separately because the vector field argument is
already a closed function. -/
structure ODESolverOptions (α : Type) where
  initialConditions : List α
  timeSpan : α × α
  timePoints : Option ℤ
  tolerance : Option α
  minStepSize : Option α
  maxStepSize : Option α

/-- The uniform output grid built when timePoints is requested
(lines 109-112): t0 + i * duration / (timePoints - 1). -/
def uniformGrid (t0 duration : α) (n : ℤ) : List α :=
  (List.range n.toNat).map
    (fun i : ℕ => t0 + ((i : α) * duration) / ((n : α) - 1))

/-- Function solveODE: resolve option defaults, run the adaptive loop and,
when a number of output points was requested and the adaptive grid misses it,
resample onto the uniform grid. -/
def solveODE (ops : MathOps α) (f : α → List α → List α)
    (o : ODESolverOptions α) (fuel : ℕ) : List α × List (List α) :=
  let tolerance := o.tolerance.getD (1/1000000)
  let minStepSize := o.minStepSize.getD (1/100000000)
  let t0 := o.timeSpan.1
  let tf := o.timeSpan.2
  let duration := tf - t0
  let targetSpacing : α := match o.timePoints with
    | some n => duration / ((n : α) - 1)
    | none => 0
  let defaultMaxStep : α :=
    if (o.timePoints.isSome ∧ targetSpacing ≠ 0) then targetSpacing / 2
    else 1/100
  let maxStep : α := match o.maxStepSize with
    | some m => if m ≠ 0 then m else defaultMaxStep
    | none => defaultMaxStep
  let st0 : SolveState α := ⟨t0, o.initialConditions, maxStep,
    [t0], [o.initialConditions]⟩
  let fin := solveLoop ops f tf tolerance minStepSize maxStep fuel st0
  match o.timePoints with
  | some n =>
      if n ≠ 0 ∧ (fin.tResult.length : ℤ) ≠ n then
        let tInterp := uniformGrid t0 duration n
        (tInterp, interpolateMulti fin.tResult fin.yResult tInterp)
      else (fin.tResult, fin.yResult)
  | none => (fin.tResult, fin.yResult)

/-! ### models/ecgsyn.ts -/

/-- Parameters for one wave component (interface WaveParameters). -/
structure WaveParameters (α : Type) where
  amplitude : α
  width : α
  position : α

/-- Complete parameter set (interface ECGSynParameters). -/
structure ECGSynParameters (α : Type) where
  P : WaveParameters α
  Q : WaveParameters α
  R : WaveParameters α
  S : WaveParameters α
  T : WaveParameters α
  heartRate : α
  respiratoryRate : Option α
  respiratoryAmplitude : Option α

/-- Default parameters for a normal ECG (const DEFAULT_ECGSYN_PARAMS);
decimal literals written as fractions. -/
def DEFAULT_ECGSYN_PARAMS (ops : MathOps α) : ECGSynParameters α where
  P := ⟨15/100, 9/100, -(ops.pi) / 3⟩
  Q := ⟨-(25/1000), 66/1000, -(ops.pi) / 12⟩
  R := ⟨16/10, 11/100, 0⟩
  S := ⟨-(25/100), 66/1000, ops.pi / 12⟩
  T := ⟨35/100, 142/1000, ops.pi / 2⟩
  heartRate := 60
  respiratoryRate := some 15
  respiratoryAmplitude := some (1/100)

/-- Parameter object handed to the vector field ({omega, waves, z0Function}). -/
structure ODEParams (α : Type) where
  omega : α
  waves : List (WaveParameters α)
  z0Function : Option (α → α)

/-- The first wrapping while-loop of ecgsynODE: subtract 2*pi while the
angle exceeds pi (fuel-bounded; the bound is never reached on the angles
the model produces). -/
def wrapDown (pi : α) : ℕ → α → α
  | 0, d => d
  | n + 1, d => if d > pi then wrapDown pi n (d - 2 * pi) else d

/-- The second wrapping while-loop of ecgsynODE: add 2*pi while the angle
is below -pi. -/
def wrapUp (pi : α) : ℕ → α → α
  | 0, d => d
  | n + 1, d => if d < -pi then wrapUp pi n (d + 2 * pi) else d

/-- Wrap an angle into [-pi, pi] by repeated 2*pi adjustment, as the two
while-loops of ecgsynODE do. -/
def wrapAngle (pi d : α) : α := wrapUp pi 1000 (wrapDown pi 1000 d)

/-- The ECGSYN three-state vector field (const ecgsynODE). -/
def ecgsynODE (ops : MathOps α) (p : ODEParams α) : α → List α → List α :=
  fun t state =>
    let x := state.getD 0 0
    let y := state.getD 1 0
    let z := state.getD 2 0
    let r := ops.sqrt (x * x + y * y)
    let alpha := 1 - r
    let theta := ops.atan2 y x
    let dzdtWaves := p.waves.foldl
      (fun acc w =>
        let deltaTheta := wrapAngle ops.pi (theta - w.position)
        let gaussian :=
          ops.exp (-(deltaTheta * deltaTheta) / (2 * w.width * w.width))
        acc - w.amplitude * p.omega * deltaTheta * gaussian) 0
    let z0 := match p.z0Function with
      | some f => f t
      | none => 0
    let dzdt := dzdtWaves - (z - z0)
    [alpha * x - p.omega * y, alpha * y + p.omega * x, dzdt]

/-- Empirical amplitude scale applied to the z component (const AMPLITUDE_SCALE). -/
def AMPLITUDE_SCALE (α : Type) [LinearOrderedField α] : α := 80

/-- Function generateECGSyn: angular velocity from the heart rate, the wave
list, the respiratory baseline function (JavaScript truthiness: a zero
respiratory rate or amplitude disables it), the requested number of output
points Math.ceil(duration * samplingRate), the ODE solve and the scaled z
extraction. -/
def generateECGSyn (ops : MathOps α) (duration samplingRate : α)
    (params : ECGSynParameters α) (tolerance : α) (fuel : ℕ) :
    List α × List α :=
  let rrInterval := 60 / params.heartRate
  let omega := 2 * ops.pi / rrInterval
  let waves := [params.P, params.Q, params.R, params.S, params.T]
  let z0Function : Option (α → α) :=
    match params.respiratoryRate, params.respiratoryAmplitude with
    | some rr, some ra =>
        if rr ≠ 0 ∧ ra ≠ 0 then
          some (fun t => ra * ops.sin (2 * ops.pi * rr / 60 * t))
        else none
    | _, _ => none
  let numPoints : ℤ := ⌈duration * samplingRate⌉
  let solution := solveODE ops (ecgsynODE ops ⟨omega, waves, z0Function⟩)
    ⟨[1, 0, 0], (0, duration), some numPoints, some tolerance, none, none⟩ fuel
  let ecg := solution.2.map (fun state => state.getD 2 0 * AMPLITUDE_SCALE α)
  (solution.1, ecg)

/-- Basic pathology transforms (const PATHOLOGY_PARAMS of ecgsyn.ts),
an association list keyed by the pathology identifier. -/
def PATHOLOGY_PARAMS (ops : MathOps α) :
    List (String × (ECGSynParameters α → ECGSynParameters α)) :=
  [("atrialFibrillation", fun base =>
      { base with P := { base.P with amplitude := 0 } }),
   ("firstDegreeAVBlock", fun base =>
      { base with P := { base.P with position := -(ops.pi) / 2 } }),
   ("ventricularTachycardia", fun base =>
      { base with
        heartRate := 180
        Q := { base.Q with width := base.Q.width * 2 }
        R := { base.R with width := base.R.width * 2 }
        S := { base.S with width := base.S.width * 2 } }),
   ("stemi", fun base =>
      { base with
        S := { base.S with amplitude := base.S.amplitude * (1/2) }
        T := { base.T with
                 amplitude := base.T.amplitude * (3/2)
                 position := ops.pi / 3 } }),
   ("bradycardia", fun base => { base with heartRate := 45 }),
   ("tachycardia", fun base => { base with heartRate := 120 })]

/-! ### models/ecgsyn-enhanced.ts -/

/-- An enhanced pathology transform: it may consume values from the random
stream (only the atrial fibrillation entry does), so it receives the stream
and the cursor and returns the new cursor alongside the new parameters. -/
abbrev EnhancedTransform (α : Type) :=
  (ℕ → α) → ℕ → ECGSynParameters α → ECGSynParameters α × ℕ

/-- Enhanced pathology transforms (const ENHANCED_PATHOLOGY_PARAMS),
an association list keyed by the pathology identifier; all fourteen
identifiers of the closed enumeration are present. -/
def ENHANCED_PATHOLOGY_PARAMS (ops : MathOps α) :
    List (String × EnhancedTransform α) :=
  [("normal", fun _ ix base => (base, ix)),
   ("atrialFibrillation", fun rng ix base =>
      ({ base with
         P := ⟨0, 1/100, base.P.position⟩
         heartRate := 90 + rng ix * 40 }, ix + 1)),
   ("firstDegreeAVBlock", fun _ ix base =>
      ({ base with P := { base.P with position := -(ops.pi) * (6/10) } }, ix)),
   ("ventricularTachycardia", fun _ ix base =>
      ({ base with
         heartRate := 180
         P := ⟨0, 1/100, base.P.position⟩
         Q := ⟨-(4/10), 15/100, base.Q.position - 1/10⟩
         R := ⟨25/10, 2/10, base.R.position⟩
         S := ⟨-(8/10), 15/100, base.S.position + 1/10⟩
         T := ⟨-(6/10), 2/10, base.T.position⟩ }, ix)),
   ("stemi", fun _ ix base =>
      ({ base with
         Q := ⟨-(3/10), 8/100, base.Q.position⟩
         R := { base.R with amplitude := base.R.amplitude * (7/10) }
         S := ⟨-(5/100), 3/100, base.S.position⟩
         T := ⟨8/10, 2/10, ops.pi / 3⟩ }, ix)),
   ("completeHeartBlock", fun _ ix base =>
      ({ base with
         heartRate := 40
         P := { base.P with amplitude := base.P.amplitude * (12/10) }
         R := { base.R with amplitude := base.R.amplitude * (13/10) } }, ix)),
   ("bradycardia", fun _ ix base =>
      ({ base with
         heartRate := 45
         T := { base.T with
                  amplitude := base.T.amplitude * (12/10)
                  width := base.T.width * (11/10) } }, ix)),
   ("tachycardia", fun _ ix base =>
      ({ base with
         heartRate := 140
         P := { base.P with
                  amplitude := base.P.amplitude * (7/10)
                  position := -(ops.pi) / 4 }
         T := { base.T with
                  amplitude := base.T.amplitude * (8/10)
                  width := base.T.width * (9/10) } }, ix)),
   ("lbbb", fun _ ix base =>
      ({ base with
         Q := ⟨0, 1/100, base.Q.position⟩
         R := ⟨18/10, 18/100, base.R.position⟩
         S := ⟨-(1/10), 18/100, base.S.position + 15/100⟩
         T := ⟨-(4/10), base.T.width, base.T.position⟩ }, ix)),
   ("rbbb", fun _ ix base =>
      ({ base with
         R := ⟨12/10, 6/100, base.R.position⟩
         S := ⟨-(8/10), 12/100, base.S.position⟩
         T := ⟨-(3/10), base.T.width, base.T.position⟩ }, ix)),
   ("hyperkalemia", fun _ ix base =>
      ({ base with
         P := { base.P with
                  amplitude := base.P.amplitude * (1/2)
                  width := base.P.width * (3/2) }
         Q := { base.Q with width := base.Q.width * (13/10) }
         R := { base.R with width := base.R.width * (13/10) }
         S := { base.S with width := base.S.width * (13/10) }
         T := ⟨12/10, 8/100, base.T.position⟩ }, ix)),
   ("hypokalemia", fun _ ix base =>
      ({ base with
         T := ⟨1/10, base.T.width * (3/2), base.T.position⟩ }, ix)),
   ("lvh", fun _ ix base =>
      ({ base with
         R := ⟨28/10, base.R.width, base.R.position⟩
         S := ⟨-(12/10), base.S.width, base.S.position⟩
         T := ⟨-(3/10), base.T.width * (11/10), base.T.position⟩ }, ix)),
   ("pericarditis", fun _ ix base =>
      ({ base with
         P := { base.P with amplitude := base.P.amplitude * (12/10) }
         S := ⟨-(5/100), 2/100, base.S.position⟩
         T := ⟨6/10, 25/100, ops.pi / (35/10)⟩ }, ix))]

/-! ### ECGGenerator.ts -/

/-- A sinusoidal noise component with amplitude and frequency. -/
structure NoiseBand (α : Type) where
  amplitude : α
  frequency : α

/-- A noise component configured by amplitude alone. -/
structure NoiseAmp (α : Type) where
  amplitude : α

/-- Interface NoiseOptions. -/
structure NoiseOptions (α : Type) where
  baseline : Option (NoiseBand α)
  powerline : Option (NoiseBand α)
  muscle : Option (NoiseAmp α)
  gaussian : Option (NoiseAmp α)

/-- A partial parameter override (Partial of ECGSynParameters): present
fields replace the corresponding field wholesale under object spread. -/
structure ECGCustomParams (α : Type) where
  P : Option (WaveParameters α)
  Q : Option (WaveParameters α)
  R : Option (WaveParameters α)
  S : Option (WaveParameters α)
  T : Option (WaveParameters α)
  heartRate : Option α
  respiratoryRate : Option (Option α)
  respiratoryAmplitude : Option (Option α)

/-- Object spread { ...params, ...customParams }. -/
def applyCustom (p : ECGSynParameters α) (c : Option (ECGCustomParams α)) :
    ECGSynParameters α :=
  match c with
  | none => p
  | some c =>
      ⟨c.P.getD p.P, c.Q.getD p.Q, c.R.getD p.R, c.S.getD p.S, c.T.getD p.T,
       c.heartRate.getD p.heartRate,
       c.respiratoryRate.getD p.respiratoryRate,
       c.respiratoryAmplitude.getD p.respiratoryAmplitude⟩

/-- Interface ECGGeneratorOptions. -/
structure ECGGeneratorOptions (α : Type) where
  samplingRate : Option α
  duration : Option α
  heartRate : Option α
  pathology : Option String
  noise : Option (NoiseOptions α)
  customParams : Option (ECGCustomParams α)
  solverTolerance : Option α

/-- Metadata of an ECGResult. -/
structure ECGMetadata (α : Type) where
  duration : α
  heartRate : α
  pathology : String
  noise : Option (NoiseOptions α)

/-- Interface ECGResult. -/
structure ECGResult (α : Type) where
  time : List α
  signal : List α
  samplingRate : α
  metadata : ECGMetadata α

/-- Class ECGGenerator: the only instance state is the sampling rate. -/
structure ECGGenerator (α : Type) where
  samplingRate : α

/-- The ECGGenerator constructor: sampling rates below 250 Hz throw. -/
def ECGGenerator.construct (samplingRate : α) :
    Except String (ECGGenerator α) :=
  if samplingRate < 250 then
    .error "Sampling rate must be at least 250 Hz for ECG generation"
  else .ok ⟨samplingRate⟩

/-- Method addSTElevation: within the 35 to 44 percent window of a fixed
70-bpm beat cycle, add a Gaussian bump peaking at 0.3 mV. -/
def addSTElevation (ops : MathOps α) (signal time : List α) : List α :=
  let beatDuration : α := 60 / 70
  List.zipWith
    (fun s t0 =>
      let t := jsMod t0 beatDuration
      if t > 35/100 * beatDuration ∧ t < 44/100 * beatDuration then
        let stPhase := (t - 35/100 * beatDuration) / (9/100 * beatDuration)
        s + 3/10 * ops.exp (-((stPhase - 1/2) ^ 2) * 10)
      else s)
    signal time

/-- Method addUWaves: within the 65 to 80 percent window of the actual
heart-rate cycle, add a Gaussian bump peaking at 0.15 mV. -/
def addUWaves (ops : MathOps α) (signal time : List α) (heartRate : α) :
    List α :=
  let beatDuration : α := 60 / heartRate
  List.zipWith
    (fun s t0 =>
      let t := jsMod t0 beatDuration
      if t > 65/100 * beatDuration ∧ t < 8/10 * beatDuration then
        let uPhase := (t - 65/100 * beatDuration) / (15/100 * beatDuration)
        s + 15/100 * ops.exp (-((uPhase - 1/2) ^ 2) / (5/100))
      else s)
    signal time

/-- One sample of addFibrillatoryWaves: the sum over the six frequencies
350, 400, ..., 600 of 0.02 * sin(2 pi f t + random * 2 pi), consuming one
random draw per frequency. -/
def fibSample (ops : MathOps α) (rng : ℕ → α) (t : α) (ix : ℕ) : α × ℕ :=
  ([350, 400, 450, 500, 550, 600] : List α).foldl
    (fun acc freq =>
      (acc.1 + 2/100 * ops.sin (2 * ops.pi * freq * t + rng acc.2 * (2 * ops.pi)),
       acc.2 + 1))
    (0, ix)

/-- Method addFibrillatoryWaves, threading the random cursor sample by
sample in source order. -/
def addFibrillatoryWaves (ops : MathOps α) (signal time : List α)
    (rng : ℕ → α) (ix : ℕ) : List α × ℕ :=
  let r := (signal.zip time).foldl
    (fun acc st =>
      let fw := fibSample ops rng st.2 acc.2
      (acc.1 ++ [st.1 + fw.1], fw.2))
    (([] : List α), ix)
  r

/-- Method simulateAVDissociation: currently the identity pass. -/
def simulateAVDissociation (signal : List α) : List α := signal

/-- Inner copy loop of makeIrregular: while sourceIndex < time.length and
time[sourceIndex] < endTime, push startTime + (time[sourceIndex] % avgRR)
and the source sample whenever the adjusted time does not exceed the last
source time.  The counter argument bounds the remaining iterations; callers
pass time.length, which the loop can never exceed. -/
def copySegment (avgRR endTime lastT : α) (time signal : List α) :
    ℕ → ℕ → α → List α × List α × ℕ
  | 0, i, _ => ([], [], i)
  | counter + 1, i, startTime =>
      if i < time.length ∧ time.getD i 0 < endTime then
        let adjusted := startTime + jsMod (time.getD i 0) avgRR
        let rest := copySegment avgRR endTime lastT time signal counter
          (i + 1) startTime
        if adjusted ≤ lastT then
          (adjusted :: rest.1, signal.getD i 0 :: rest.2.1, rest.2.2)
        else rest
      else ([], [], i)

/-- Outer loop of makeIrregular, with fuel: draw a random RR interval,
copy the corresponding slice, then snap the source index back to the start
of a beat and continue. -/
def makeIrregularLoop (samplingRate : α) (time signal : List α)
    (avgRR : α) (rng : ℕ → α) :
    ℕ → α → ℕ → ℕ → List α × List α × ℕ
  | 0, _, _, ix => ([], [], ix)
  | fuel + 1, currentTime, sourceIndex, ix =>
      let lastT := time.getD (time.length - 1) 0
      if currentTime < lastT ∧ (sourceIndex : ℤ) < (signal.length : ℤ) - 1 then
        let rrInterval := avgRR * (4/10 + rng ix * (11/10))
        let endTime := currentTime + rrInterval
        let seg := copySegment avgRR endTime lastT time signal time.length
          sourceIndex currentTime
        let snapped : ℤ :=
          ⌊(seg.2.2 : α) / (avgRR * samplingRate)⌋ * ⌊avgRR * samplingRate⌋
        let rest := makeIrregularLoop samplingRate time signal avgRR rng fuel
          endTime snapped.toNat (ix + 1)
        (seg.1 ++ rest.1, seg.2.1 ++ rest.2.1, rest.2.2)
      else ([], [], ix)

/-- Method makeIrregular (AFib resampling): avgRR = 60 / baseHeartRate;
note that the snap of the source index uses the sampling rate stored on the
generator instance (this.samplingRate). -/
def makeIrregular (samplingRate : α) (time signal : List α)
    (baseHeartRate : α) (rng : ℕ → α) (ix : ℕ) (fuel : ℕ) :
    List α × List α × ℕ :=
  let avgRR := 60 / baseHeartRate
  makeIrregularLoop samplingRate time signal avgRR rng fuel 0 0 ix

/-- A sinusoidal additive pass of addNoise; the baseline-wander and
powerline blocks of the source have this identical body, so it is shared. -/
def bandPass (ops : MathOps α) (b : Option (NoiseBand α))
    (signal time : List α) : List α :=
  match b with
  | some nb => List.zipWith
      (fun s t => s + nb.amplitude * ops.sin (2 * ops.pi * nb.frequency * t))
      signal time
  | none => signal

/-- The muscle-artifact pass of addNoise: two random draws per sample. -/
def musclePass (ops : MathOps α) (m : Option (NoiseAmp α))
    (signal time : List α) (rng : ℕ → α) (ix : ℕ) : List α × ℕ :=
  match m with
  | some mu =>
      (signal.zip time).foldl
        (fun acc st =>
          (acc.1 ++ [st.1 + mu.amplitude * (rng acc.2 - 1/2) *
            ops.sin (2 * ops.pi * (20 + rng (acc.2 + 1) * 30) * st.2)],
           acc.2 + 2))
        (([] : List α), ix)
  | none => (signal, ix)

/-- The gaussian pass of addNoise: Box-Muller from two draws per sample. -/
def gaussianPass (ops : MathOps α) (ga : Option (NoiseAmp α))
    (signal : List α) (rng : ℕ → α) (ix : ℕ) : List α × ℕ :=
  match ga with
  | some g =>
      signal.foldl
        (fun acc s =>
          let u1 := rng acc.2
          let u2 := rng (acc.2 + 1)
          let gaussian := ops.sqrt (-2 * ops.log u1) * ops.cos (2 * ops.pi * u2)
          (acc.1 ++ [s + g.amplitude * gaussian], acc.2 + 2))
        (([] : List α), ix)
  | none => (signal, ix)

/-- Method addNoise: the four optional additive passes in source order
(baseline wander, powerline, muscle, gaussian), threading the random
cursor through the muscle and gaussian passes. -/
def addNoise (ops : MathOps α) (signal time : List α)
    (noise : NoiseOptions α) (rng : ℕ → α) (ix : ℕ) : List α × ℕ :=
  let s1 := bandPass ops noise.baseline signal time
  let s2 := bandPass ops noise.powerline s1 time
  let m := musclePass ops noise.muscle s2 time rng ix
  gaussianPass ops noise.gaussian m.1 rng m.2

/-- Resolved duration option of generate (default 10). -/
def resolvedDuration (o : ECGGeneratorOptions α) : α := o.duration.getD 10

/-- Resolved heart-rate option of generate (default 60). -/
def resolvedHeartRate (o : ECGGeneratorOptions α) : α := o.heartRate.getD 60

/-- Resolved pathology option of generate (default normal). -/
def resolvedPathology (o : ECGGeneratorOptions α) : String :=
  o.pathology.getD "normal"

/-- Resolved sampling-rate option of generate (default: the rate stored on
the generator instance).  No validation is applied to a per-call override. -/
def resolvedSamplingRate (g : ECGGenerator α) (o : ECGGeneratorOptions α) : α :=
  o.samplingRate.getD g.samplingRate

/-- Resolved solver tolerance of generate (default 1e-6).  No validation. -/
def resolvedTolerance (o : ECGGeneratorOptions α) : α :=
  o.solverTolerance.getD (1/1000000)

/-- The pathology dispatch of generate (lines 106-115): outside the normal
case, try the enhanced table first, fall back to the basic table, and keep
the base parameters unchanged when both lookups miss. -/
def pathologyDispatch (ops : MathOps α) (pathology : String) (rng : ℕ → α)
    (ix : ℕ) (params : ECGSynParameters α) : ECGSynParameters α × ℕ :=
  if pathology = "normal" then (params, ix)
  else
    match (ENHANCED_PATHOLOGY_PARAMS ops).lookup pathology with
    | some f => f rng ix params
    | none =>
        match (PATHOLOGY_PARAMS ops).lookup pathology with
        | some f => (f params, ix)
        | none => (params, ix)

/-- The pathology-specific post-processing chain of generate (lines
126-141), returning the possibly rewritten time and signal arrays and the
random cursor.  storedRate is this.samplingRate, which the irregular
resampling uses even when a per-call override is active. -/
def postProcess (ops : MathOps α) (storedRate : α) (pathology : String)
    (timeL signalL : List α) (hr : α) (rng : ℕ → α) (ix fuel : ℕ) :
    List α × List α × ℕ :=
  if pathology = "stemi" then (timeL, addSTElevation ops signalL timeL, ix)
  else if pathology = "hypokalemia" then
    (timeL, addUWaves ops signalL timeL hr, ix)
  else if pathology = "atrialFibrillation" then
    let fw := addFibrillatoryWaves ops signalL timeL rng ix
    makeIrregular storedRate timeL fw.1 hr rng fw.2 fuel
  else if pathology = "completeHeartBlock" then
    (timeL, simulateAVDissociation signalL, ix)
  else (timeL, signalL, ix)

/-- The optional noise stage of generate (lines 144-146). -/
def noiseStage (ops : MathOps α) (nzo : Option (NoiseOptions α))
    (signalL timeL : List α) (rng : ℕ → α) (ix : ℕ) : List α × ℕ :=
  match nzo with
  | some nz => addNoise ops signalL timeL nz rng ix
  | none => (signalL, ix)

/-- Method ECGGenerator.generate, also returning the final random cursor so
that the streaming driver can thread it.  The pipeline: option defaults,
pathology parameter transform, custom parameter spread, clean ECGSYN
generation, pathology post-processing, optional noise. -/
def ECGGenerator.generateRun (ops : MathOps α) (g : ECGGenerator α)
    (o : ECGGeneratorOptions α) (rng : ℕ → α) (ix : ℕ) (fuel : ℕ) :
    ECGResult α × ℕ :=
  let duration := resolvedDuration o
  let pathology := resolvedPathology o
  let samplingRate := resolvedSamplingRate g o
  let params0 := { DEFAULT_ECGSYN_PARAMS ops with heartRate := resolvedHeartRate o }
  let pr := pathologyDispatch ops pathology rng ix params0
  let params := applyCustom pr.1 o.customParams
  let sol := generateECGSyn ops duration samplingRate params
    (resolvedTolerance o) fuel
  let post := postProcess ops g.samplingRate pathology sol.1 sol.2
    params.heartRate rng pr.2 fuel
  let noised := noiseStage ops o.noise post.2.1 post.1 rng post.2.2
  ({ time := post.1
     signal := noised.1
     samplingRate := samplingRate
     metadata := { duration := duration, heartRate := params.heartRate,
                   pathology := pathology, noise := o.noise } },
   noised.2)

/-- Method ECGGenerator.generate (result component of generateRun). -/
def ECGGenerator.generate (ops : MathOps α) (g : ECGGenerator α)
    (o : ECGGeneratorOptions α) (rng : ℕ → α) (ix : ℕ) (fuel : ℕ) :
    ECGResult α :=
  (ECGGenerator.generateRun ops g o rng ix fuel).1

/-- The fixed per-lead transform table of generateMultiLead. -/
def leadTransforms (α : Type) [LinearOrderedField α] :
    List (String × (List α → List α)) :=
  [("I", fun signal => signal.map (fun v => v * (8/10))),
   ("II", fun signal => signal),
   ("III", fun signal => signal.map (fun v => v * (6/10))),
   ("aVR", fun signal => signal.map (fun v => -v * (1/2))),
   ("aVL", fun signal => signal.map (fun v => v * (4/10))),
   ("aVF", fun signal => signal.map (fun v => v * (7/10))),
   ("V1", fun signal => signal.map (fun v => v * (3/10))),
   ("V2", fun signal => signal.map (fun v => v * (1/2))),
   ("V3", fun signal => signal.map (fun v => v * (8/10))),
   ("V4", fun signal => signal.map (fun v => v * 1)),
   ("V5", fun signal => signal.map (fun v => v * (9/10))),
   ("V6", fun signal => signal.map (fun v => v * (7/10)))]

/-- Method ECGGenerator.generateMultiLead: generate the base Lead-II trace
once, then map every requested lead name to a result that shares every
field of the base result except the signal, which is the lead transform of
the base signal (the identity when the name is not in the table). -/
def ECGGenerator.generateMultiLead (ops : MathOps α) (g : ECGGenerator α)
    (o : ECGGeneratorOptions α) (leads : List String) (rng : ℕ → α)
    (ix : ℕ) (fuel : ℕ) : List (String × ECGResult α) :=
  let leadII := ECGGenerator.generate ops g o rng ix fuel
  leads.map (fun lead =>
    let transform := ((leadTransforms α).lookup lead).getD (fun s => s)
    (lead, { leadII with signal := transform leadII.signal }))

/-- Total duration resolved by generateStream: options.duration with
JavaScript truthiness (an absent or zero duration means Infinity,
modelled as none). -/
def resolvedTotalDuration (o : ECGGeneratorOptions α) : Option α :=
  match o.duration with
  | some d => if d = 0 then none else some d
  | none => none

/-- Whether the streaming loop continues at elapsed duration gd. -/
def streamContinue (o : ECGGeneratorOptions α) (gd : α) : Bool :=
  match resolvedTotalDuration o with
  | none => true
  | some d => decide (gd < d)

/-- Duration of the chunk generated at elapsed duration gd:
min(chunkDuration, remainingDuration), where the remainder of an unbounded
stream is infinite. -/
def chunkDurationAt (o : ECGGeneratorOptions α) (chunkDuration gd : α) : α :=
  match resolvedTotalDuration o with
  | none => chunkDuration
  | some d => min chunkDuration (d - gd)

/-- State of generateStream before pulling the k-th chunk: the cumulative
generated duration and the random cursor. -/
def streamState (ops : MathOps α) (g : ECGGenerator α)
    (o : ECGGeneratorOptions α) (chunkDuration : α) (rng : ℕ → α) (ix0 : ℕ)
    (fuel : ℕ) : ℕ → α × ℕ
  | 0 => (0, ix0)
  | k + 1 =>
      let s := streamState ops g o chunkDuration rng ix0 fuel k
      if streamContinue o s.1 then
        let cd := chunkDurationAt o chunkDuration s.1
        (s.1 + cd,
         (ECGGenerator.generateRun ops g { o with duration := some cd } rng
           s.2 fuel).2)
      else s

/-- Method ECGGenerator.generateStream, as the function giving the k-th
yielded chunk (none when the generator is exhausted): generate a chunk of
the clamped duration with the full pipeline, then offset its time values by
the cumulative elapsed duration. -/
def streamNth (ops : MathOps α) (g : ECGGenerator α)
    (o : ECGGeneratorOptions α) (chunkDuration : α) (rng : ℕ → α) (ix0 : ℕ)
    (fuel : ℕ) (k : ℕ) : Option (ECGResult α) :=
  let s := streamState ops g o chunkDuration rng ix0 fuel k
  if streamContinue o s.1 then
    let cd := chunkDurationAt o chunkDuration s.1
    let chunk := (ECGGenerator.generateRun ops g { o with duration := some cd }
      rng s.2 fuel).1
    some { chunk with time := chunk.time.map (fun t => t + s.1) }
  else none

/-! ### IEEE control model of the adaptive stepping loop (solveODE lines 62-104)

The field embedding above models JavaScript numbers as elements of a linear
ordered field, which is exact while every intermediate value is an ordinary
real, but has no NaN and no infinities.  The step-size control of solveODE
leaves that regime when the tolerance is negative: Math.pow of a negative
base with the non-integer exponents 0.2 and 0.25 is NaN.  The loop of lines
62 to 104 is therefore re-embedded here over an explicit IEEE-style value
type (finite value, the two infinities, NaN).  The state vector enters the
control flow of those lines only through the error norm
sqrt(sum of squared estimate differences) / length (line 85), so the model
carries the per-iteration sum of squares as an oracle stream and the vector
length as a constant.  Finite zeros are modelled as +0, which is exact on
these paths because the only zero that can reach a sign-sensitive operation
is the +0 of the nonnegative sqrt quotient; finite overflow to infinity is
not modelled, as everywhere else in this file. -/

/-- A JavaScript number for the IEEE control model: a finite value, one of
the two infinities, or NaN. -/
inductive JsVal (α : Type) where
  | fin : α → JsVal α
  | posInf : JsVal α
  | negInf : JsVal α
  | nan : JsVal α

/-- IEEE negation. -/
def jsNeg : JsVal α → JsVal α
  | .fin x => .fin (-x)
  | .posInf => .negInf
  | .negInf => .posInf
  | .nan => .nan

/-- IEEE addition: NaN propagates, opposite infinities give NaN. -/
def jsAdd : JsVal α → JsVal α → JsVal α
  | .nan, _ => .nan
  | _, .nan => .nan
  | .posInf, .negInf => .nan
  | .negInf, .posInf => .nan
  | .posInf, _ => .posInf
  | .negInf, _ => .negInf
  | .fin _, .posInf => .posInf
  | .fin _, .negInf => .negInf
  | .fin x, .fin y => .fin (x + y)

/-- IEEE subtraction: addition of the negation. -/
def jsSub (a b : JsVal α) : JsVal α := jsAdd a (jsNeg b)

/-- IEEE multiplication: NaN propagates, zero times an infinity is NaN. -/
def jsMul : JsVal α → JsVal α → JsVal α
  | .nan, _ => .nan
  | _, .nan => .nan
  | .posInf, .posInf => .posInf
  | .posInf, .negInf => .negInf
  | .negInf, .posInf => .negInf
  | .negInf, .negInf => .posInf
  | .posInf, .fin y => if y = 0 then .nan else if y < 0 then .negInf else .posInf
  | .negInf, .fin y => if y = 0 then .nan else if y < 0 then .posInf else .negInf
  | .fin x, .posInf => if x = 0 then .nan else if x < 0 then .negInf else .posInf
  | .fin x, .negInf => if x = 0 then .nan else if x < 0 then .posInf else .negInf
  | .fin x, .fin y => .fin (x * y)

/-- IEEE division: NaN propagates, infinity over infinity and zero over
zero are NaN, a nonzero finite value over (+)0 is a signed infinity, a
finite value over an infinity is (+)0. -/
def jsDiv : JsVal α → JsVal α → JsVal α
  | .nan, _ => .nan
  | _, .nan => .nan
  | .posInf, .posInf => .nan
  | .posInf, .negInf => .nan
  | .negInf, .posInf => .nan
  | .negInf, .negInf => .nan
  | .posInf, .fin y => if y < 0 then .negInf else .posInf
  | .negInf, .fin y => if y < 0 then .posInf else .negInf
  | .fin _, .posInf => .fin 0
  | .fin _, .negInf => .fin 0
  | .fin x, .fin y =>
      if y = 0 then (if x = 0 then .nan else if x < 0 then .negInf else .posInf)
      else .fin (x / y)

/-- Math.max: NaN if either argument is NaN. -/
def jsMax : JsVal α → JsVal α → JsVal α
  | .nan, _ => .nan
  | _, .nan => .nan
  | .posInf, _ => .posInf
  | _, .posInf => .posInf
  | .negInf, y => y
  | x, .negInf => x
  | .fin x, .fin y => .fin (max x y)

/-- Math.min: NaN if either argument is NaN. -/
def jsMin : JsVal α → JsVal α → JsVal α
  | .nan, _ => .nan
  | _, .nan => .nan
  | .negInf, _ => .negInf
  | _, .negInf => .negInf
  | .posInf, y => y
  | x, .posInf => x
  | .fin x, .fin y => .fin (min x y)

/-- The < comparison: false whenever either side is NaN. -/
def jsLt : JsVal α → JsVal α → Bool
  | .nan, _ => false
  | _, .nan => false
  | .posInf, _ => false
  | .negInf, .negInf => false
  | .negInf, _ => true
  | .fin _, .posInf => true
  | .fin _, .negInf => false
  | .fin x, .fin y => decide (x < y)

/-- The <= comparison: false whenever either side is NaN. -/
def jsLe : JsVal α → JsVal α → Bool
  | .nan, _ => false
  | _, .nan => false
  | .posInf, .posInf => true
  | .posInf, _ => false
  | .negInf, _ => true
  | .fin _, .posInf => true
  | .fin _, .negInf => false
  | .fin x, .fin y => decide (x ≤ y)

/-- The > comparison: the < comparison with the operands swapped. -/
def jsGt (a b : JsVal α) : Bool := jsLt b a

/-- Math.sqrt: NaN for NaN or any negative value, infinity for infinity. -/
def jsSqrt (ops : MathOps α) : JsVal α → JsVal α
  | .nan => .nan
  | .posInf => .posInf
  | .negInf => .nan
  | .fin x => if x < 0 then .nan else .fin (ops.sqrt x)

/-- Math.pow for a finite positive non-integer exponent (the step control
calls it only with the constants 0.2 and 0.25): a NaN base gives NaN,
either infinite base gives +Infinity, a negative finite base gives NaN,
and a nonnegative finite base gives the real power. -/
def jsPow (ops : MathOps α) : JsVal α → α → JsVal α
  | .nan, _ => .nan
  | .posInf, _ => .posInf
  | .negInf, _ => .posInf
  | .fin x, e => if x < 0 then .nan else .fin (ops.powf x e)

/-- Control state of the adaptive while loop in the IEEE model: the
current time, the current step size, the recorded time stamps, and the
cursor into the oracle stream of error sums. -/
structure JsLoopState (α : Type) where
  currentT : JsVal α
  stepSize : JsVal α
  tResult : List (JsVal α)
  iter : ℕ

/-- One iteration of the while-loop body (lines 62-104) in the IEEE model:
clamp the step to the remaining span, form the error norm from this
iteration's sum of squared estimate differences divided through the vector
length, then accept (advance, record, and grow the step only when the
error norm compares greater than zero) or reject (shrink the step and
advance nothing). -/
def jsStepIter (ops : MathOps α)
    (tf tolerance minStepSize maxStep nLen : JsVal α)
    (sqs : ℕ → JsVal α) (st : JsLoopState α) : JsLoopState α :=
  let h := if jsGt (jsAdd st.currentT st.stepSize) tf
           then jsSub tf st.currentT else st.stepSize
  let errorNorm := jsDiv (jsSqrt ops (sqs st.iter)) nLen
  if jsLt errorNorm tolerance || jsLe h minStepSize then
    let newT := jsAdd st.currentT h
    let newStep :=
      if jsGt errorNorm (.fin 0) then
        jsMin maxStep (jsMul h (jsMin (.fin 2)
          (jsMul (.fin (9/10)) (jsPow ops (jsDiv tolerance errorNorm) (1/5)))))
      else h
    ⟨newT, newStep, st.tResult ++ [newT], st.iter + 1⟩
  else
    ⟨st.currentT,
     jsMax minStepSize (jsMul h (jsMax (.fin (1/10))
       (jsMul (.fin (9/10)) (jsPow ops (jsDiv tolerance errorNorm) (1/4))))),
     st.tResult, st.iter + 1⟩

/-- The adaptive while loop of solveODE (line 62) in the IEEE model, with
fuel. -/
def jsSolveLoop (ops : MathOps α)
    (tf tolerance minStepSize maxStep nLen : JsVal α)
    (sqs : ℕ → JsVal α) : ℕ → JsLoopState α → JsLoopState α
  | 0, st => st
  | fuel + 1, st =>
      if jsLt st.currentT tf then
        jsSolveLoop ops tf tolerance minStepSize maxStep nLen sqs fuel
          (jsStepIter ops tf tolerance minStepSize maxStep nLen sqs st)
      else st

/-! ### Claim-side definitions

The following definitions are written from the words of the specification
and the claims, not from the source; each is compared with the behaviour of
the source embedding above. -/

/-- Claim-side: JavaScript Math.round (round half up), the sample count the
specification asserts for generate. -/
def jsRound (x : α) : ℤ := ⌊x + 1/2⌋

/-- Claim-side: the step-growth factor asserted for every acceptance,
min(2.0, 0.9 * (tolerance / errorNorm)^0.2). -/
noncomputable def claimGrowthFactor (tolerance errorNorm : ℝ) : ℝ :=
  min 2 (9/10 * Real.rpow (tolerance / errorNorm) (1/5))

/-- Claim-side: the root-mean-square of a vector,
sqrt of the mean of the squares. -/
noncomputable def claimRms (e : List ℝ) : ℝ :=
  Real.sqrt ((e.foldl (fun s x => s + x * x) 0) / e.length)

/-- Claim-side: the fixed per-lead scalar table asserted by the claim for
generateMultiLead. -/
def claimLeadScale : String → Option ℚ := fun lead =>
  if lead = "I" then some (8/10)
  else if lead = "II" then some 1
  else if lead = "III" then some (6/10)
  else if lead = "aVR" then some (-(1/2))
  else if lead = "aVL" then some (4/10)
  else if lead = "aVF" then some (7/10)
  else if lead = "V1" then some (3/10)
  else if lead = "V2" then some (1/2)
  else if lead = "V3" then some (8/10)
  else if lead = "V4" then some 1
  else if lead = "V5" then some (9/10)
  else if lead = "V6" then some (7/10)
  else none

/-- Claim-side: the closed fourteen-member pathology enumeration. -/
def knownPathologies : List String :=
  ["normal", "atrialFibrillation", "firstDegreeAVBlock",
   "ventricularTachycardia", "stemi", "bradycardia", "tachycardia",
   "completeHeartBlock", "lbbb", "rbbb", "hyperkalemia", "hypokalemia",
   "lvh", "pericarditis"]

/-- Invariant of the adaptive stepping loop: the recorded times are
nondecreasing, start at t0, never exceed the current time, the step size is
nonnegative and the current time never exceeds tf. -/
def LoopInv (t0 tf : α) (st : SolveState α) : Prop :=
  st.tResult.Pairwise (· ≤ ·)
  ∧ st.tResult.head? = some t0
  ∧ (∀ x ∈ st.tResult, x ≤ st.currentT)
  ∧ 0 ≤ st.stepSize
  ∧ st.currentT ≤ tf

/-! ## Theorems -/

/-! ### Length bookkeeping for the solver -/

theorem solveStepIter_len_eq (ops : MathOps α) (f : α → List α → List α)
    (tf tolerance minStepSize maxStep : α) (st : SolveState α)
    (h : st.yResult.length = st.tResult.length) :
    (solveStepIter ops f tf tolerance minStepSize maxStep st).yResult.length
      = (solveStepIter ops f tf tolerance minStepSize maxStep st).tResult.length := by
  unfold solveStepIter
  dsimp only
  split <;> split <;> simp [h]

theorem solveLoop_len_eq (ops : MathOps α) (f : α → List α → List α)
    (tf tolerance minStepSize maxStep : α) (fuel : ℕ) (st : SolveState α)
    (h : st.yResult.length = st.tResult.length) :
    (solveLoop ops f tf tolerance minStepSize maxStep fuel st).yResult.length
      = (solveLoop ops f tf tolerance minStepSize maxStep fuel st).tResult.length := by
  induction fuel generalizing st with
  | zero => simpa using h
  | succ n ih =>
      rw [solveLoop]
      split
      · exact ih _ (solveStepIter_len_eq ops f tf tolerance minStepSize maxStep st h)
      · simpa using h

theorem uniformGrid_length (t0 duration : α) (n : ℤ) :
    (uniformGrid t0 duration n).length = n.toNat := by
  unfold uniformGrid
  rw [List.length_map, List.length_range]

theorem interpolateMulti_length (tOrig : List α) (yOrig : List (List α))
    (tNew : List α) :
    (interpolateMulti tOrig yOrig tNew).length = tNew.length := by
  simp [interpolateMulti]

/-- Final resampling branch of solveODE: whatever trajectory the loop
produced, the returned lists have exactly n entries when n is nonzero. -/
theorem ifInterp_length (t : List α) (y : List (List α)) (t0 dur : α)
    (n : ℤ) (hty : y.length = t.length) (hn : n ≠ 0) :
    ((if n ≠ 0 ∧ (t.length : ℤ) ≠ n then
        (uniformGrid t0 dur n, interpolateMulti t y (uniformGrid t0 dur n))
      else (t, y)).1.length = n.toNat)
    ∧ ((if n ≠ 0 ∧ (t.length : ℤ) ≠ n then
        (uniformGrid t0 dur n, interpolateMulti t y (uniformGrid t0 dur n))
      else (t, y)).2.length = n.toNat) := by
  split
  · exact ⟨uniformGrid_length _ _ _,
      by rw [interpolateMulti_length, uniformGrid_length]⟩
  · rename_i hcond
    dsimp only
    rw [hty]
    omega

/-- Whenever a nonzero number of output points is requested, solveODE
returns exactly that many time samples and state vectors, independently of
the behaviour of the adaptive loop. -/
theorem solveODE_length (ops : MathOps α) (f : α → List α → List α)
    (o : ODESolverOptions α) (fuel : ℕ) (n : ℤ)
    (htp : o.timePoints = some n) (hn : n ≠ 0) :
    (solveODE ops f o fuel).1.length = n.toNat
      ∧ (solveODE ops f o fuel).2.length = n.toNat := by
  unfold solveODE
  rw [htp]
  dsimp only
  refine ifInterp_length _ _ _ _ _ ?_ hn
  exact solveLoop_len_eq _ _ _ _ _ _ _ _ (by simp)

theorem generateECGSyn_length (ops : MathOps α) (d sr : α)
    (params : ECGSynParameters α) (tol : α) (fuel : ℕ)
    (hn : (⌈d * sr⌉ : ℤ) ≠ 0) :
    (generateECGSyn ops d sr params tol fuel).1.length = (⌈d * sr⌉ : ℤ).toNat
      ∧ (generateECGSyn ops d sr params tol fuel).2.length
          = (⌈d * sr⌉ : ℤ).toNat := by
  unfold generateECGSyn
  dsimp only
  constructor
  · exact (solveODE_length _ _ _ _ _ rfl hn).1
  · rw [List.length_map]
    exact (solveODE_length _ _ _ _ _ rfl hn).2

/-- Length bookkeeping for a fold that appends one element per input. -/
theorem foldl_push_length {σ β : Type} (step : σ → β → σ) (len : σ → ℕ)
    (hstep : ∀ acc b, len (step acc b) = len acc + 1) (l : List β) (init : σ) :
    len (l.foldl step init) = len init + l.length := by
  induction l generalizing init with
  | nil => simp
  | cons a tl ih =>
      rw [List.foldl_cons, ih, hstep, List.length_cons]
      omega

theorem addSTElevation_length (ops : MathOps α) (signal time : List α) :
    (addSTElevation ops signal time).length = min signal.length time.length := by
  unfold addSTElevation
  exact List.length_zipWith _ _ _

theorem addUWaves_length (ops : MathOps α) (signal time : List α) (hr : α) :
    (addUWaves ops signal time hr).length = min signal.length time.length := by
  unfold addUWaves
  exact List.length_zipWith _ _ _

theorem addFibrillatoryWaves_length (ops : MathOps α) (signal time : List α)
    (rng : ℕ → α) (ix : ℕ) :
    (addFibrillatoryWaves ops signal time rng ix).1.length
      = min signal.length time.length := by
  unfold addFibrillatoryWaves
  dsimp only
  have h := foldl_push_length
    (fun (acc : List α × ℕ) (st : α × α) =>
      (acc.1 ++ [st.1 + (fibSample ops rng st.2 acc.2).1],
        (fibSample ops rng st.2 acc.2).2))
    (fun p => p.1.length) (by intro acc b; simp) (signal.zip time)
    (([] : List α), ix)
  simpa [List.length_zip] using h

theorem bandPass_length (ops : MathOps α) (b : Option (NoiseBand α))
    (signal time : List α) (h : signal.length ≤ time.length) :
    (bandPass ops b signal time).length = signal.length := by
  unfold bandPass
  cases b <;> simp [List.length_zipWith] <;> omega

theorem musclePass_length (ops : MathOps α) (m : Option (NoiseAmp α))
    (signal time : List α) (rng : ℕ → α) (ix : ℕ)
    (h : signal.length ≤ time.length) :
    (musclePass ops m signal time rng ix).1.length = signal.length := by
  unfold musclePass
  cases m with
  | none => rfl
  | some mu =>
      dsimp only
      have hl := foldl_push_length
        (fun (acc : List α × ℕ) (st : α × α) =>
          (acc.1 ++ [st.1 + mu.amplitude * (rng acc.2 - 1/2) *
            ops.sin (2 * ops.pi * (20 + rng (acc.2 + 1) * 30) * st.2)],
           acc.2 + 2))
        (fun p => p.1.length) (by intro acc b; simp) (signal.zip time)
        (([] : List α), ix)
      simp only [List.length_zip] at hl
      have hmin : min signal.length time.length = signal.length := by omega
      simpa [hmin] using hl

theorem gaussianPass_length (ops : MathOps α) (ga : Option (NoiseAmp α))
    (signal : List α) (rng : ℕ → α) (ix : ℕ) :
    (gaussianPass ops ga signal rng ix).1.length = signal.length := by
  unfold gaussianPass
  cases ga with
  | none => rfl
  | some g =>
      dsimp only
      have hl := foldl_push_length
        (fun (acc : List α × ℕ) (s : α) =>
          (acc.1 ++ [s + g.amplitude *
            (ops.sqrt (-2 * ops.log (rng acc.2)) *
              ops.cos (2 * ops.pi * rng (acc.2 + 1)))], acc.2 + 2))
        (fun p => p.1.length) (by intro acc b; simp) signal
        (([] : List α), ix)
      simpa using hl

theorem addNoise_length (ops : MathOps α) (signal time : List α)
    (noise : NoiseOptions α) (rng : ℕ → α) (ix : ℕ)
    (h : signal.length = time.length) :
    (addNoise ops signal time noise rng ix).1.length = signal.length := by
  unfold addNoise
  dsimp only
  have h1 : (bandPass ops noise.baseline signal time).length = signal.length :=
    bandPass_length _ _ _ _ (le_of_eq h)
  have h2 : (bandPass ops noise.powerline
      (bandPass ops noise.baseline signal time) time).length
      = signal.length := by
    rw [bandPass_length _ _ _ _ (by rw [h1, h]), h1]
  have h3 : (musclePass ops noise.muscle
      (bandPass ops noise.powerline
        (bandPass ops noise.baseline signal time) time) time rng
        ix).1.length = signal.length := by
    rw [musclePass_length _ _ _ _ _ _ (by rw [h2, h]), h2]
  rw [gaussianPass_length]
  exact h3

theorem copySegment_lengths (avgRR endTime lastT : α) (time signal : List α)
    (counter i : ℕ) (startTime : α) :
    (copySegment avgRR endTime lastT time signal counter i startTime).1.length
      = (copySegment avgRR endTime lastT time signal counter i startTime).2.1.length := by
  induction counter generalizing i with
  | zero => rfl
  | succ c ih =>
      rw [copySegment]
      split
      · dsimp only
        split
        · simp [ih]
        · exact ih _
      · rfl

theorem makeIrregularLoop_lengths (samplingRate : α) (time signal : List α)
    (avgRR : α) (rng : ℕ → α) (fuel : ℕ) (currentTime : α)
    (sourceIndex ix : ℕ) :
    (makeIrregularLoop samplingRate time signal avgRR rng fuel currentTime
      sourceIndex ix).1.length
      = (makeIrregularLoop samplingRate time signal avgRR rng fuel currentTime
          sourceIndex ix).2.1.length := by
  induction fuel generalizing currentTime sourceIndex ix with
  | zero => rfl
  | succ c ih =>
      rw [makeIrregularLoop]
      split
      · simp [copySegment_lengths, ih]
      · rfl

theorem makeIrregular_lengths (samplingRate : α) (time signal : List α)
    (baseHeartRate : α) (rng : ℕ → α) (ix : ℕ) (fuel : ℕ) :
    (makeIrregular samplingRate time signal baseHeartRate rng ix fuel).1.length
      = (makeIrregular samplingRate time signal baseHeartRate rng ix
          fuel).2.1.length := by
  unfold makeIrregular
  exact makeIrregularLoop_lengths _ _ _ _ _ _ _ _ _

theorem postProcess_time (ops : MathOps α) (storedRate : α)
    (pathology : String) (hp : pathology ≠ "atrialFibrillation")
    (timeL signalL : List α) (hr : α) (rng : ℕ → α) (ix fuel : ℕ) :
    (postProcess ops storedRate pathology timeL signalL hr rng ix fuel).1
      = timeL := by
  unfold postProcess
  split_ifs <;> rfl

theorem postProcess_signal_length (ops : MathOps α) (storedRate : α)
    (pathology : String) (hp : pathology ≠ "atrialFibrillation")
    (timeL signalL : List α) (heq : signalL.length = timeL.length)
    (hr : α) (rng : ℕ → α) (ix fuel : ℕ) :
    (postProcess ops storedRate pathology timeL signalL hr rng ix
      fuel).2.1.length = signalL.length := by
  unfold postProcess
  split_ifs with h1 h2 h3
  · dsimp only; rw [addSTElevation_length]; omega
  · dsimp only; rw [addUWaves_length]; omega
  · dsimp only; simp [simulateAVDissociation]
  · rfl

/-- Whatever the pathology (atrial fibrillation included), the
post-processing chain keeps the time and signal arrays the same length as
each other. -/
theorem postProcess_len_eq (ops : MathOps α) (storedRate : α)
    (pathology : String) (timeL signalL : List α)
    (heq : signalL.length = timeL.length) (hr : α) (rng : ℕ → α)
    (ix fuel : ℕ) :
    (postProcess ops storedRate pathology timeL signalL hr rng ix
        fuel).2.1.length
      = (postProcess ops storedRate pathology timeL signalL hr rng ix
          fuel).1.length := by
  unfold postProcess
  split_ifs with h1 h2 h3 h4
  · dsimp only; rw [addSTElevation_length]; omega
  · dsimp only; rw [addUWaves_length]; omega
  · dsimp only; exact (makeIrregular_lengths _ _ _ _ _ _ _).symm
  · dsimp only; simp [simulateAVDissociation, heq]
  · exact heq

theorem noiseStage_length (ops : MathOps α) (nzo : Option (NoiseOptions α))
    (signalL timeL : List α) (rng : ℕ → α) (ix : ℕ)
    (heq : signalL.length = timeL.length) :
    (noiseStage ops nzo signalL timeL rng ix).1.length = signalL.length := by
  unfold noiseStage
  cases nzo with
  | none => rfl
  | some nz => exact addNoise_length _ _ _ _ _ _ heq

theorem pipeline_signal_length (ops : MathOps α) (storedRate : α)
    (pathology : String) (hp : pathology ≠ "atrialFibrillation")
    (tL sL : List α) (heq : sL.length = tL.length) (hr : α)
    (nzo : Option (NoiseOptions α)) (rng : ℕ → α) (ix fuel : ℕ) :
    (noiseStage ops nzo
      (postProcess ops storedRate pathology tL sL hr rng ix fuel).2.1
      (postProcess ops storedRate pathology tL sL hr rng ix fuel).1 rng
      (postProcess ops storedRate pathology tL sL hr rng ix
        fuel).2.2).1.length = sL.length := by
  rw [noiseStage_length _ _ _ _ _ _ (postProcess_len_eq _ _ _ _ _ heq _ _ _ _)]
  exact postProcess_signal_length _ _ _ hp _ _ heq _ _ _ _

/-- Outside the atrial fibrillation path, generate returns time and signal
arrays of exactly ceil(duration * samplingRate) entries each. -/
theorem generateRun_length (ops : MathOps α) (g : ECGGenerator α)
    (o : ECGGeneratorOptions α) (rng : ℕ → α) (ix : ℕ) (fuel : ℕ)
    (hn : (⌈resolvedDuration o * resolvedSamplingRate g o⌉ : ℤ) ≠ 0)
    (hp : resolvedPathology o ≠ "atrialFibrillation") :
    (ECGGenerator.generateRun ops g o rng ix fuel).1.time.length
        = (⌈resolvedDuration o * resolvedSamplingRate g o⌉ : ℤ).toNat
      ∧ (ECGGenerator.generateRun ops g o rng ix fuel).1.signal.length
        = (⌈resolvedDuration o * resolvedSamplingRate g o⌉ : ℤ).toNat := by
  unfold ECGGenerator.generateRun
  dsimp only
  have hsol := generateECGSyn_length ops (resolvedDuration o)
    (resolvedSamplingRate g o)
    (applyCustom (pathologyDispatch ops (resolvedPathology o) rng ix
        { DEFAULT_ECGSYN_PARAMS ops with
            heartRate := resolvedHeartRate o }).1
      o.customParams)
    (resolvedTolerance o) fuel hn
  constructor
  · rw [postProcess_time _ _ _ hp]
    exact hsol.1
  · exact (pipeline_signal_length ops g.samplingRate (resolvedPathology o) hp
      _ _ (hsol.2.trans hsol.1.symm) _ o.noise rng _ fuel).trans hsol.2

/-! ### Claim C1 -/

/-- C1, amended: for every valid generation request (duration > 0, heart
rate > 0, sampling rate at least 250, pathology other than
atrialFibrillation), generate returns a result with
signal.length = ceil(duration * samplingRate).  The claim as frozen asserts
round(duration * samplingRate); the source (generateECGSyn, line 374) uses
Math.ceil, which differs from Math.round whenever the fractional part of
duration * samplingRate lies in (0, 1/2). -/
theorem C1_generate_sample_count (g : ECGGenerator ℝ)
    (o : ECGGeneratorOptions ℝ) (rng : ℕ → ℝ) (ix fuel : ℕ) (d sr hr : ℝ)
    (hd : o.duration = some d) (hdpos : 0 < d)
    (hsr : o.samplingRate = some sr) (hsrge : (250 : ℝ) ≤ sr)
    (hhr : o.heartRate = some hr) (hhrpos : 0 < hr)
    (hp : resolvedPathology o ≠ "atrialFibrillation") :
    (ECGGenerator.generate realOps g o rng ix fuel).signal.length
      = (⌈d * sr⌉ : ℤ).toNat := by
  have hres : resolvedDuration o = d := by simp [resolvedDuration, hd]
  have hres2 : resolvedSamplingRate g o = sr := by
    simp [resolvedSamplingRate, hsr]
  have hn : (⌈resolvedDuration o * resolvedSamplingRate g o⌉ : ℤ) ≠ 0 := by
    rw [hres, hres2]
    have hpos : (0 : ℝ) < d * sr :=
      mul_pos hdpos (lt_of_lt_of_le (by norm_num) hsrge)
    have := Int.ceil_pos.mpr hpos
    omega
  have h := generateRun_length realOps g o rng ix fuel hn hp
  rw [hres, hres2] at h
  rw [ECGGenerator.generate]
  exact h.2

/-- Witness for C1 at duration 1 s, 1000 Hz, 70 bpm, normal pathology:
exactly 1000 samples. -/
theorem C1_witness :
    (0 : ℝ) < 1 ∧ (250 : ℝ) ≤ 1000 ∧ (0 : ℝ) < 70 ∧
    (ECGGenerator.generate realOps ⟨1000⟩
        ⟨some 1000, some 1, some 70, some "normal", none, none, none⟩
        (fun _ => 0) 0 3).signal.length = ((⌈(1 : ℝ) * 1000⌉ : ℤ)).toNat := by
  refine ⟨by norm_num, by norm_num, by norm_num, ?_⟩
  exact C1_generate_sample_count ⟨1000⟩
    ⟨some 1000, some 1, some 70, some "normal", none, none, none⟩
    (fun _ => 0) 0 3 1 1000 70 rfl (by norm_num) rfl (by norm_num) rfl
    (by norm_num) (by decide)

/-- Counterexample to C1 as frozen: at duration 1/4 s and sampling rate
253 Hz (a valid request), duration * samplingRate = 63.25, the code
produces ceil = 64 samples while the claim asserts round = 63. -/
theorem C1_counterexample :
    (ECGGenerator.generate realOps ⟨1000⟩
        ⟨some 253, some (1/4), some 60, some "normal", none, none, none⟩
        (fun _ => 0) 0 3).signal.length
      ≠ (jsRound ((1/4 : ℝ) * 253)).toNat := by
  have hn : (⌈resolvedDuration
      (⟨some 253, some (1/4), some 60, some "normal", none, none, none⟩ :
        ECGGeneratorOptions ℝ) *
      resolvedSamplingRate ⟨1000⟩
      (⟨some 253, some (1/4), some 60, some "normal", none, none, none⟩ :
        ECGGeneratorOptions ℝ)⌉ : ℤ) ≠ 0 := by
    have hpos : (0 : ℝ) < resolvedDuration
        (⟨some 253, some (1/4), some 60, some "normal", none, none, none⟩ :
          ECGGeneratorOptions ℝ) *
        resolvedSamplingRate ⟨1000⟩
        (⟨some 253, some (1/4), some 60, some "normal", none, none, none⟩ :
          ECGGeneratorOptions ℝ) := by
      norm_num [resolvedDuration, resolvedSamplingRate]
    have := Int.ceil_pos.mpr hpos
    omega
  have h := generateRun_length realOps ⟨1000⟩
    ⟨some 253, some (1/4), some 60, some "normal", none, none, none⟩
    (fun _ => 0) 0 3 hn (by decide)
  have hres : resolvedDuration
      (⟨some 253, some (1/4), some 60, some "normal", none, none, none⟩ :
        ECGGeneratorOptions ℝ) = (1/4 : ℝ) := rfl
  have hres2 : resolvedSamplingRate ⟨1000⟩
      (⟨some 253, some (1/4), some 60, some "normal", none, none, none⟩ :
        ECGGeneratorOptions ℝ) = (253 : ℝ) := rfl
  rw [hres, hres2] at h
  rw [ECGGenerator.generate, h.2]
  have hceil : (⌈(1/4 : ℝ) * 253⌉ : ℤ) = 64 := by
    rw [Int.ceil_eq_iff] <;> norm_num
  have hround : jsRound ((1/4 : ℝ) * 253) = 63 := by
    rw [jsRound, Int.floor_eq_iff] <;> norm_num
  rw [hceil, hround]
  decide

/-! ### Claim C4 -/

/-- C4, amended: a sampling rate below 250 Hz is rejected at generator
construction, before any generation; but the per-call samplingRate override
passed to generate is not validated at all - generate simply uses it.
(The claim as frozen asserts rejection on every path, including the
per-call override; the source only checks in the constructor.) -/
theorem C4_sampling_rate_validation (sr : ℝ) (g : ECGGenerator ℝ)
    (o : ECGGeneratorOptions ℝ) (rng : ℕ → ℝ) (ix fuel : ℕ) (srO : ℝ)
    (ho : o.samplingRate = some srO) :
    (sr < 250 → ECGGenerator.construct sr =
      Except.error "Sampling rate must be at least 250 Hz for ECG generation")
    ∧ (250 ≤ sr → ECGGenerator.construct sr = Except.ok ⟨sr⟩)
    ∧ (ECGGenerator.generate realOps g o rng ix fuel).samplingRate = srO := by
  refine ⟨fun h => ?_, fun h => ?_, ?_⟩
  · rw [ECGGenerator.construct, if_pos h]
  · rw [ECGGenerator.construct, if_neg (not_lt.mpr h)]
  · rw [ECGGenerator.generate, ECGGenerator.generateRun]
    simp [resolvedSamplingRate, ho]

/-- Witness for C4: constructing at 100 Hz fails, and the same 100 Hz
passed as a per-call override is used unvalidated. -/
theorem C4_witness :
    ((⟨some 100, some 1, some 60, some "normal", none, none, none⟩ :
        ECGGeneratorOptions ℝ).samplingRate = some 100)
    ∧ ((100 : ℝ) < 250 → ECGGenerator.construct (100 : ℝ) =
        Except.error "Sampling rate must be at least 250 Hz for ECG generation")
    ∧ ((250 : ℝ) ≤ 100 → ECGGenerator.construct (100 : ℝ) = Except.ok ⟨100⟩)
    ∧ (ECGGenerator.generate realOps ⟨1000⟩
        ⟨some 100, some 1, some 60, some "normal", none, none, none⟩
        (fun _ => 0) 0 3).samplingRate = 100 := by
  have h := C4_sampling_rate_validation (100 : ℝ) ⟨1000⟩
    ⟨some 100, some 1, some 60, some "normal", none, none, none⟩
    (fun _ => 0) 0 3 100 rfl
  exact ⟨rfl, h.1, h.2.1, h.2.2⟩

/-- Counterexample to C4 as frozen: generate accepts a 100 Hz per-call
override (100 < 250) and produces a complete 100-sample one-second trace at
that rate instead of rejecting it. -/
theorem C4_counterexample :
    (ECGGenerator.generate realOps ⟨1000⟩
        ⟨some 100, some 1, some 60, some "normal", none, none, none⟩
        (fun _ => 0) 0 3).samplingRate = 100
    ∧ (ECGGenerator.generate realOps ⟨1000⟩
        ⟨some 100, some 1, some 60, some "normal", none, none, none⟩
        (fun _ => 0) 0 3).signal.length = 100
    ∧ (100 : ℝ) < 250 := by
  refine ⟨?_, ?_, by norm_num⟩
  · rw [ECGGenerator.generate, ECGGenerator.generateRun]
    simp [resolvedSamplingRate]
  · have hn : (⌈resolvedDuration
        (⟨some 100, some 1, some 60, some "normal", none, none, none⟩ :
          ECGGeneratorOptions ℝ) *
        resolvedSamplingRate ⟨1000⟩
        (⟨some 100, some 1, some 60, some "normal", none, none, none⟩ :
          ECGGeneratorOptions ℝ)⌉ : ℤ) ≠ 0 := by
      have hpos : (0 : ℝ) < resolvedDuration
          (⟨some 100, some 1, some 60, some "normal", none, none, none⟩ :
            ECGGeneratorOptions ℝ) *
          resolvedSamplingRate ⟨1000⟩
          (⟨some 100, some 1, some 60, some "normal", none, none, none⟩ :
            ECGGeneratorOptions ℝ) := by
        norm_num [resolvedDuration, resolvedSamplingRate]
      have := Int.ceil_pos.mpr hpos
      omega
    have h := generateRun_length realOps ⟨1000⟩
      ⟨some 100, some 1, some 60, some "normal", none, none, none⟩
      (fun _ => 0) 0 3 hn (by decide)
    have hres : resolvedDuration
        (⟨some 100, some 1, some 60, some "normal", none, none, none⟩ :
          ECGGeneratorOptions ℝ) = (1 : ℝ) := rfl
    have hres2 : resolvedSamplingRate ⟨1000⟩
        (⟨some 100, some 1, some 60, some "normal", none, none, none⟩ :
          ECGGeneratorOptions ℝ) = (100 : ℝ) := rfl
    rw [hres, hres2] at h
    rw [ECGGenerator.generate, h.2]
    have hceil : (⌈(1 : ℝ) * 100⌉ : ℤ) = 100 := by
      rw [Int.ceil_eq_iff] <;> norm_num
    rw [hceil]
    decide

/-! ### Evaluation lemmas for the solver on a constant one-dimensional field -/

theorem rk45Step_const (c t y0 hh : α) :
    rk45Step (fun _ _ => [c]) t [y0] hh
      = ([y0 + hh * c], [y0 + hh * c], [0]) := by
  unfold rk45Step rk45Stages stageY axpyList DP_A DP_B DP_C5 DP_C4
  norm_num [List.zip]
  refine ⟨by ring, by ring, by ring⟩

/-! ### Claim C5 -/

theorem jsLt_errorNorm_neg (ops : MathOps α) (q : JsVal α) (n tol : α)
    (hsq : ∀ x : α, 0 ≤ x → 0 ≤ ops.sqrt x) (hn : 0 < n) (htol : tol < 0) :
    jsLt (jsDiv (jsSqrt ops q) (JsVal.fin n)) (JsVal.fin tol) = false := by
  cases q with
  | nan => rfl
  | negInf => rfl
  | posInf =>
      simp only [jsSqrt, jsDiv]
      rw [if_neg (not_lt.mpr hn.le)]
      rfl
  | fin x =>
      by_cases hx : x < 0
      · simp only [jsSqrt]
        rw [if_pos hx]
        rfl
      · simp only [jsSqrt]
        rw [if_neg hx]
        simp only [jsDiv]
        rw [if_neg hn.ne']
        simp only [jsLt, decide_eq_false_iff_not, not_lt]
        exact le_trans htol.le (div_nonneg (hsq x (not_lt.mp hx)) hn.le)

theorem jsStepIter_nan_absorbs (ops : MathOps α) (tf maxS : JsVal α)
    (tol m n : α) (sqs : ℕ → JsVal α) (st : JsLoopState α)
    (hsq : ∀ x : α, 0 ≤ x → 0 ≤ ops.sqrt x) (hn : 0 < n) (htol : tol < 0)
    (hss : st.stepSize = JsVal.nan) :
    jsStepIter ops tf (JsVal.fin tol) (JsVal.fin m) maxS (JsVal.fin n) sqs st
      = ⟨st.currentT, JsVal.nan, st.tResult, st.iter + 1⟩ := by
  obtain ⟨ct, ss, tr, it⟩ := st
  dsimp only at hss ⊢
  subst hss
  unfold jsStepIter
  dsimp only
  rw [show jsAdd ct (JsVal.nan : JsVal α) = JsVal.nan from by cases ct <;> rfl,
      show jsGt (JsVal.nan : JsVal α) tf = false from by cases tf <;> rfl]
  simp only [Bool.false_eq_true, if_false]
  rw [jsLt_errorNorm_neg ops (sqs it) n tol hsq hn htol,
      show jsLe (JsVal.nan : JsVal α) (JsVal.fin m) = false from rfl]
  simp only [Bool.or_self, Bool.false_eq_true, if_false]
  rw [show ∀ Y : JsVal α, jsMul JsVal.nan Y = JsVal.nan from
        fun Y => by cases Y <;> rfl,
      show jsMax (JsVal.fin m) (JsVal.nan : JsVal α) = JsVal.nan from rfl]

theorem jsSolveLoop_nan_locked (ops : MathOps α) (tf maxS : JsVal α)
    (tol m n : α) (sqs : ℕ → JsVal α)
    (hsq : ∀ x : α, 0 ≤ x → 0 ≤ ops.sqrt x) (hn : 0 < n) (htol : tol < 0) :
    ∀ (fuel : ℕ) (st : JsLoopState α), st.stepSize = JsVal.nan →
      (jsSolveLoop ops tf (JsVal.fin tol) (JsVal.fin m) maxS (JsVal.fin n)
          sqs fuel st).currentT = st.currentT
      ∧ (jsSolveLoop ops tf (JsVal.fin tol) (JsVal.fin m) maxS (JsVal.fin n)
          sqs fuel st).tResult = st.tResult
      ∧ (jsSolveLoop ops tf (JsVal.fin tol) (JsVal.fin m) maxS (JsVal.fin n)
          sqs fuel st).stepSize = JsVal.nan := by
  intro fuel
  induction fuel with
  | zero => exact fun st hss => ⟨rfl, rfl, hss⟩
  | succ k ih =>
      intro st hss
      rw [jsSolveLoop]
      split
      · rw [jsStepIter_nan_absorbs ops tf maxS tol m n sqs st hsq hn htol hss]
        exact ih ⟨st.currentT, JsVal.nan, st.tResult, st.iter + 1⟩ rfl
      · exact ⟨rfl, rfl, hss⟩

theorem jsStepIter_reject_nan (ops : MathOps α) (maxS : JsVal α)
    (tf tol m n t h s : α) (sqs : ℕ → JsVal α) (st : JsLoopState α)
    (hsq0 : ∀ x : α, 0 ≤ x → 0 ≤ ops.sqrt x)
    (hsqp : ∀ x : α, 0 < x → 0 < ops.sqrt x)
    (hn : 0 < n) (htol : tol < 0)
    (hct : st.currentT = JsVal.fin t) (hss : st.stepSize = JsVal.fin h)
    (hsv : sqs st.iter = JsVal.fin s) (hspos : 0 < s)
    (hm : m < (if tf < t + h then tf - t else h)) :
    jsStepIter ops (JsVal.fin tf) (JsVal.fin tol) (JsVal.fin m) maxS
      (JsVal.fin n) sqs st
      = ⟨JsVal.fin t, JsVal.nan, st.tResult, st.iter + 1⟩ := by
  obtain ⟨ct, ss, tr, it⟩ := st
  dsimp only at hct hss hsv ⊢
  subst hct
  subst hss
  unfold jsStepIter
  dsimp only
  rw [hsv]
  have hclamp : (if jsGt (jsAdd (JsVal.fin t) (JsVal.fin h)) (JsVal.fin tf)
      then jsSub (JsVal.fin tf) (JsVal.fin t) else (JsVal.fin h : JsVal α))
      = JsVal.fin (if tf < t + h then tf - t else h) := by
    by_cases hc : tf < t + h
    · rw [show jsGt (jsAdd (JsVal.fin t) (JsVal.fin h)) (JsVal.fin tf)
          = true from by simp [jsGt, jsAdd, jsLt, hc]]
      simp [jsSub, jsNeg, jsAdd, hc, sub_eq_add_neg]
    · rw [show jsGt (jsAdd (JsVal.fin t) (JsVal.fin h)) (JsVal.fin tf)
          = false from by simp [jsGt, jsAdd, jsLt, hc]]
      simp [hc]
  rw [hclamp]
  have hsqrt : jsSqrt ops (JsVal.fin s) = JsVal.fin (ops.sqrt s) := by
    simp only [jsSqrt]
    rw [if_neg (not_lt.mpr hspos.le)]
  have hdiv : jsDiv (JsVal.fin (ops.sqrt s)) (JsVal.fin n)
      = JsVal.fin (ops.sqrt s / n) := by
    simp only [jsDiv]
    rw [if_neg hn.ne']
  rw [hsqrt, hdiv]
  have he1 : jsLt (JsVal.fin (ops.sqrt s / n)) (JsVal.fin tol) = false := by
    simp only [jsLt, decide_eq_false_iff_not, not_lt]
    exact le_trans htol.le (div_nonneg (hsq0 s hspos.le) hn.le)
  have he2 : jsLe (JsVal.fin (if tf < t + h then tf - t else h))
      (JsVal.fin m) = false := by
    simp only [jsLe, decide_eq_false_iff_not, not_le]
    exact hm
  rw [he1, he2]
  simp only [Bool.or_self, Bool.false_eq_true, if_false]
  have hq : (0:α) < ops.sqrt s / n := div_pos (hsqp s hspos) hn
  have hdiv2 : jsDiv (JsVal.fin tol) (JsVal.fin (ops.sqrt s / n))
      = JsVal.fin (tol / (ops.sqrt s / n)) := by
    simp only [jsDiv]
    rw [if_neg hq.ne']
  rw [hdiv2]
  have hpow : jsPow ops (JsVal.fin (tol / (ops.sqrt s / n))) (1/4)
      = JsVal.nan := by
    simp only [jsPow]
    rw [if_pos (div_neg_of_neg_of_pos htol hq)]
  rw [hpow]
  rfl

/-- C5, amended: there is no tolerance validation anywhere, so a negative
tolerance reaches the adaptive integrator, which starts stepping.  The
error norm is a sqrt quotient and therefore never compares below a
negative tolerance, so every step whose clamped size exceeds the minimum
step size is rejected; the rejection's shrink factor computes Math.pow of
the negative quotient tolerance/errorNorm with exponent 0.25, which is
NaN, and NaN propagates through the multiplication and the max clamp into
the step size, where it is absorbing: every later comparison on it is
false, no step is ever accepted or force-accepted again, the current time
and the recorded grid never change at any fuel, and the loop guard stays
true - the while loop never terminates, so generation with a non-positive
tolerance neither fails with a ConfigurationError nor returns. -/
theorem C5_negative_tolerance_never_terminates (ops : MathOps α)
    (maxS : JsVal α) (tf tol m n t h s : α) (sqs : ℕ → JsVal α)
    (tRes : List (JsVal α)) (i : ℕ)
    (hsq0 : ∀ x : α, 0 ≤ x → 0 ≤ ops.sqrt x)
    (hsqp : ∀ x : α, 0 < x → 0 < ops.sqrt x)
    (htol : tol < 0) (hn : 0 < n) (ht : t < tf)
    (hsv : sqs i = JsVal.fin s) (hspos : 0 < s)
    (hm : m < (if tf < t + h then tf - t else h)) :
    ∀ fuel : ℕ,
      (jsSolveLoop ops (JsVal.fin tf) (JsVal.fin tol) (JsVal.fin m) maxS
          (JsVal.fin n) sqs fuel
          ⟨JsVal.fin t, JsVal.fin h, tRes, i⟩).tResult = tRes
      ∧ (jsSolveLoop ops (JsVal.fin tf) (JsVal.fin tol) (JsVal.fin m) maxS
          (JsVal.fin n) sqs fuel
          ⟨JsVal.fin t, JsVal.fin h, tRes, i⟩).currentT = JsVal.fin t
      ∧ jsLt (jsSolveLoop ops (JsVal.fin tf) (JsVal.fin tol) (JsVal.fin m)
          maxS (JsVal.fin n) sqs fuel
          ⟨JsVal.fin t, JsVal.fin h, tRes, i⟩).currentT (JsVal.fin tf)
        = true := by
  have hguard : jsLt (JsVal.fin t) (JsVal.fin tf) = true := by
    simp [jsLt, ht]
  intro fuel
  cases fuel with
  | zero => exact ⟨rfl, rfl, hguard⟩
  | succ k =>
      rw [jsSolveLoop]
      dsimp only
      rw [if_pos hguard]
      rw [jsStepIter_reject_nan ops maxS tf tol m n t h s sqs
        ⟨JsVal.fin t, JsVal.fin h, tRes, i⟩ hsq0 hsqp hn htol rfl rfl hsv
        hspos hm]
      obtain ⟨h1, h2, h3⟩ := jsSolveLoop_nan_locked ops (JsVal.fin tf) maxS
        tol m n sqs hsq0 hn htol k ⟨JsVal.fin t, JsVal.nan, tRes, i + 1⟩ rfl
      exact ⟨h2, h1, by rw [h1]; exact hguard⟩

/-- Witness for C5 at a concrete input: integrating over [0, 1] with
tolerance -1, minimum step 1e-8, current step 1/100 and a unit error sum,
every hypothesis holds, and at every fuel the loop has recorded nothing
beyond the initial point, has not advanced, and its guard is still true. -/
theorem C5_witness :
    ((∀ x : ℝ, 0 ≤ x → 0 ≤ realOps.sqrt x)
      ∧ (∀ x : ℝ, 0 < x → 0 < realOps.sqrt x)
      ∧ (-1 : ℝ) < 0 ∧ (0 : ℝ) < 1 ∧ (0 : ℝ) < (1 : ℝ)
      ∧ (fun _ : ℕ => JsVal.fin (1 : ℝ)) 0 = JsVal.fin (1 : ℝ)
      ∧ (1/100000000 : ℝ) < (if (1 : ℝ) < 0 + 1/100 then 1 - 0 else 1/100))
    ∧ ∀ fuel : ℕ,
        (jsSolveLoop realOps (JsVal.fin (1 : ℝ)) (JsVal.fin (-1))
            (JsVal.fin (1/100000000)) (JsVal.fin (1/200)) (JsVal.fin 1)
            (fun _ => JsVal.fin 1) fuel
            ⟨JsVal.fin 0, JsVal.fin (1/100), [JsVal.fin 0], 0⟩).tResult
          = [JsVal.fin 0]
        ∧ (jsSolveLoop realOps (JsVal.fin (1 : ℝ)) (JsVal.fin (-1))
            (JsVal.fin (1/100000000)) (JsVal.fin (1/200)) (JsVal.fin 1)
            (fun _ => JsVal.fin 1) fuel
            ⟨JsVal.fin 0, JsVal.fin (1/100), [JsVal.fin 0], 0⟩).currentT
          = JsVal.fin 0
        ∧ jsLt (jsSolveLoop realOps (JsVal.fin (1 : ℝ)) (JsVal.fin (-1))
            (JsVal.fin (1/100000000)) (JsVal.fin (1/200)) (JsVal.fin 1)
            (fun _ => JsVal.fin 1) fuel
            ⟨JsVal.fin 0, JsVal.fin (1/100), [JsVal.fin 0], 0⟩).currentT
            (JsVal.fin 1) = true :=
  ⟨⟨fun x _ => Real.sqrt_nonneg x, fun x hx => Real.sqrt_pos.mpr hx,
    by norm_num, by norm_num, by norm_num, rfl, by norm_num⟩,
   C5_negative_tolerance_never_terminates realOps (JsVal.fin (1/200))
     1 (-1) (1/100000000) 1 0 (1/100) 1 (fun _ => JsVal.fin 1) [JsVal.fin 0]
     0 (fun x _ => Real.sqrt_nonneg x) (fun x hx => Real.sqrt_pos.mpr hx)
     (by norm_num) (by norm_num) (by norm_num) rfl (by norm_num)
     (by norm_num)⟩

/-- Counterexample to C5 as frozen: with tolerance -1 the adaptive
integrator does run (no ConfigurationError exists, and its state mutates:
after five loop iterations the step size has become NaN through Math.pow
of a negative base), yet generation never completes either: the recorded
grid is still only the initial point and the loop guard still holds. -/
theorem C5_counterexample :
    (jsSolveLoop realOps (JsVal.fin (1 : ℝ)) (JsVal.fin (-1))
        (JsVal.fin (1/100000000)) (JsVal.fin (1/200)) (JsVal.fin 1)
        (fun _ => JsVal.fin 1) 5
        ⟨JsVal.fin 0, JsVal.fin (1/100), [JsVal.fin 0], 0⟩).stepSize
      = JsVal.nan
    ∧ (jsSolveLoop realOps (JsVal.fin (1 : ℝ)) (JsVal.fin (-1))
        (JsVal.fin (1/100000000)) (JsVal.fin (1/200)) (JsVal.fin 1)
        (fun _ => JsVal.fin 1) 5
        ⟨JsVal.fin 0, JsVal.fin (1/100), [JsVal.fin 0], 0⟩).tResult
      = [JsVal.fin 0]
    ∧ jsLt (jsSolveLoop realOps (JsVal.fin (1 : ℝ)) (JsVal.fin (-1))
        (JsVal.fin (1/100000000)) (JsVal.fin (1/200)) (JsVal.fin 1)
        (fun _ => JsVal.fin 1) 5
        ⟨JsVal.fin 0, JsVal.fin (1/100), [JsVal.fin 0], 0⟩).currentT
        (JsVal.fin 1) = true := by
  have hguard : jsLt (JsVal.fin (0 : ℝ)) (JsVal.fin 1) = true := by
    simp [jsLt]
  rw [jsSolveLoop]
  dsimp only
  rw [if_pos hguard]
  rw [jsStepIter_reject_nan realOps (JsVal.fin (1/200)) 1 (-1) (1/100000000)
    1 0 (1/100) 1 (fun _ => JsVal.fin 1)
    ⟨JsVal.fin 0, JsVal.fin (1/100), [JsVal.fin 0], 0⟩
    (fun x _ => Real.sqrt_nonneg x) (fun x hx => Real.sqrt_pos.mpr hx)
    (by norm_num) (by norm_num) rfl rfl rfl (by norm_num) (by norm_num)]
  obtain ⟨h1, h2, h3⟩ := jsSolveLoop_nan_locked realOps (JsVal.fin 1)
    (JsVal.fin (1/200)) (-1) (1/100000000) 1 (fun _ => JsVal.fin 1)
    (fun x _ => Real.sqrt_nonneg x) (by norm_num) (by norm_num) 4
    ⟨JsVal.fin 0, JsVal.nan, [JsVal.fin 0], 1⟩ rfl
  exact ⟨h3, h2, by rw [h1]; exact hguard⟩

/-! ### Claim C3 -/

/-- For an identifier outside the closed enumeration, both pathology tables
miss. -/
theorem pathology_lookup_none (ops : MathOps α) (p : String)
    (hp : p ∉ knownPathologies) :
    (ENHANCED_PATHOLOGY_PARAMS ops).lookup p = none
      ∧ (PATHOLOGY_PARAMS ops).lookup p = none := by
  simp only [knownPathologies, List.mem_cons, List.not_mem_nil, or_false,
    not_or] at hp
  obtain ⟨h1, h2, h3, h4, h5, h6, h7, h8, h9, h10, h11, h12, h13, h14⟩ := hp
  have b1 := beq_eq_false_iff_ne.mpr h1
  have b2 := beq_eq_false_iff_ne.mpr h2
  have b3 := beq_eq_false_iff_ne.mpr h3
  have b4 := beq_eq_false_iff_ne.mpr h4
  have b5 := beq_eq_false_iff_ne.mpr h5
  have b6 := beq_eq_false_iff_ne.mpr h6
  have b7 := beq_eq_false_iff_ne.mpr h7
  have b8 := beq_eq_false_iff_ne.mpr h8
  have b9 := beq_eq_false_iff_ne.mpr h9
  have b10 := beq_eq_false_iff_ne.mpr h10
  have b11 := beq_eq_false_iff_ne.mpr h11
  have b12 := beq_eq_false_iff_ne.mpr h12
  have b13 := beq_eq_false_iff_ne.mpr h13
  have b14 := beq_eq_false_iff_ne.mpr h14
  constructor <;>
    simp [ENHANCED_PATHOLOGY_PARAMS, PATHOLOGY_PARAMS, List.lookup,
      b1, b2, b3, b4, b5, b6, b7, b8, b9, b10, b11, b12, b13, b14]

/-- Unknown pathology identifiers fall through the dispatch silently. -/
theorem pathologyDispatch_unknown (ops : MathOps α) (p : String)
    (hp : p ∉ knownPathologies) (rng : ℕ → α) (ix : ℕ)
    (params : ECGSynParameters α) :
    pathologyDispatch ops p rng ix params = (params, ix) := by
  have hn : p ≠ "normal" := by
    intro h
    exact hp (h ▸ by simp [knownPathologies])
  unfold pathologyDispatch
  rw [if_neg hn, (pathology_lookup_none ops p hp).1,
    (pathology_lookup_none ops p hp).2]

/-- Unknown pathology identifiers also skip every post-processing branch. -/
theorem postProcess_unknown (ops : MathOps α) (storedRate : α) (p : String)
    (hp : p ∉ knownPathologies) (timeL signalL : List α) (hr : α)
    (rng : ℕ → α) (ix fuel : ℕ) :
    postProcess ops storedRate p timeL signalL hr rng ix fuel
      = (timeL, signalL, ix) := by
  have hne : ∀ q : String, q ∈ knownPathologies → p ≠ q := by
    intro q hq h
    exact hp (h ▸ hq)
  unfold postProcess
  rw [if_neg (hne "stemi" (by simp [knownPathologies])),
    if_neg (hne "hypokalemia" (by simp [knownPathologies])),
    if_neg (hne "atrialFibrillation" (by simp [knownPathologies])),
    if_neg (hne "completeHeartBlock" (by simp [knownPathologies]))]

/-- Shared content of C3: for an identifier outside the closed
fourteen-member enumeration, generate does not fail - it builds exactly the
trace of the normal pathology (same time, same signal) and merely echoes
the unknown identifier in the metadata. -/
theorem generate_unknown_pathology (ops : MathOps α) (g : ECGGenerator α)
    (o : ECGGeneratorOptions α) (rng : ℕ → α) (ix fuel : ℕ) (p : String)
    (hpath : o.pathology = some p) (hp : p ∉ knownPathologies) :
    (ECGGenerator.generate ops g o rng ix fuel).time
        = (ECGGenerator.generate ops g { o with pathology := some "normal" }
            rng ix fuel).time
      ∧ (ECGGenerator.generate ops g o rng ix fuel).signal
        = (ECGGenerator.generate ops g { o with pathology := some "normal" }
            rng ix fuel).signal
      ∧ (ECGGenerator.generate ops g o rng ix fuel).metadata.pathology = p := by
  have hnorm : "normal" ∈ knownPathologies := by simp [knownPathologies]
  have hres : resolvedPathology o = p := by simp [resolvedPathology, hpath]
  have hres' : resolvedPathology { o with pathology := some "normal" }
      = "normal" := by simp [resolvedPathology]
  unfold ECGGenerator.generate ECGGenerator.generateRun
  dsimp only
  rw [hres, hres']
  rw [pathologyDispatch_unknown ops p hp]
  rw [show pathologyDispatch ops "normal" rng ix
      { DEFAULT_ECGSYN_PARAMS ops with
          heartRate := resolvedHeartRate { o with pathology := some "normal" } }
      = ({ DEFAULT_ECGSYN_PARAMS ops with
          heartRate := resolvedHeartRate { o with pathology := some "normal" } },
        ix) from by unfold pathologyDispatch; rw [if_pos rfl]]
  rw [postProcess_unknown ops g.samplingRate p hp]
  rw [show ∀ tL sL : List α, ∀ hr : α, ∀ ix2 : ℕ,
      postProcess ops g.samplingRate "normal" tL sL hr rng ix2 fuel
        = (tL, sL, ix2) from fun tL sL hr ix2 => by
    unfold postProcess
    rw [if_neg (by decide), if_neg (by decide), if_neg (by decide),
      if_neg (by decide)]]
  exact ⟨rfl, rfl, rfl⟩

/-- C3, amended: for a pathology identifier outside the closed
fourteen-member enumeration, generate does NOT fail with an error - the
dispatch tries the enhanced table, then the basic table, and when both miss
it silently falls back to the untransformed base parameters, producing
exactly the normal trace (same time and signal arrays) with the unknown
identifier echoed in the metadata.  (The claim as frozen asserts the
opposite: that unknown identifiers must fail and never silently fall
back.) -/
theorem C3_unknown_pathology_no_failure (g : ECGGenerator ℝ)
    (o : ECGGeneratorOptions ℝ) (rng : ℕ → ℝ) (ix fuel : ℕ) (p : String)
    (hpath : o.pathology = some p) (hp : p ∉ knownPathologies) :
    (ECGGenerator.generate realOps g o rng ix fuel).time
        = (ECGGenerator.generate realOps g
            { o with pathology := some "normal" } rng ix fuel).time
      ∧ (ECGGenerator.generate realOps g o rng ix fuel).signal
        = (ECGGenerator.generate realOps g
            { o with pathology := some "normal" } rng ix fuel).signal
      ∧ (ECGGenerator.generate realOps g o rng ix fuel).metadata.pathology
        = p :=
  generate_unknown_pathology realOps g o rng ix fuel p hpath hp

/-- Witness for C3 at the unknown identifier flutter. -/
theorem C3_witness :
    ((⟨some 1000, some 1, some 60, some "flutter", none, none, none⟩ :
        ECGGeneratorOptions ℝ).pathology = some "flutter")
    ∧ "flutter" ∉ knownPathologies
    ∧ ((ECGGenerator.generate realOps ⟨1000⟩
          ⟨some 1000, some 1, some 60, some "flutter", none, none, none⟩
          (fun _ => 0) 0 3).signal
        = (ECGGenerator.generate realOps ⟨1000⟩
            ⟨some 1000, some 1, some 60, some "normal", none, none, none⟩
            (fun _ => 0) 0 3).signal
      ∧ (ECGGenerator.generate realOps ⟨1000⟩
          ⟨some 1000, some 1, some 60, some "flutter", none, none, none⟩
          (fun _ => 0) 0 3).metadata.pathology = "flutter") := by
  have h := C3_unknown_pathology_no_failure ⟨1000⟩
    ⟨some 1000, some 1, some 60, some "flutter", none, none, none⟩
    (fun _ => 0) 0 3 "flutter" rfl (by decide)
  exact ⟨rfl, by decide, h.2.1, h.2.2⟩

/-- Counterexample to C3 as frozen: with the unknown identifier
atrialFlutter, generate does not fail - it returns a result whose time and
signal arrays are exactly those of a normal-pathology call (a silent
fallback to the untransformed trace). -/
theorem C3_counterexample :
    (ECGGenerator.generate realOps ⟨1000⟩
        ⟨some 500, some 2, some 80, some "atrialFlutter", none, none, none⟩
        (fun _ => 0) 0 4).time
      = (ECGGenerator.generate realOps ⟨1000⟩
          ⟨some 500, some 2, some 80, some "normal", none, none, none⟩
          (fun _ => 0) 0 4).time
    ∧ (ECGGenerator.generate realOps ⟨1000⟩
        ⟨some 500, some 2, some 80, some "atrialFlutter", none, none, none⟩
        (fun _ => 0) 0 4).signal
      = (ECGGenerator.generate realOps ⟨1000⟩
          ⟨some 500, some 2, some 80, some "normal", none, none, none⟩
          (fun _ => 0) 0 4).signal
    ∧ (ECGGenerator.generate realOps ⟨1000⟩
        ⟨some 500, some 2, some 80, some "atrialFlutter", none, none, none⟩
        (fun _ => 0) 0 4).metadata.pathology = "atrialFlutter" :=
  generate_unknown_pathology realOps ⟨1000⟩
    ⟨some 500, some 2, some 80, some "atrialFlutter", none, none, none⟩
    (fun _ => 0) 0 4 "atrialFlutter" rfl (by decide)

/-! ### Claims C8 and C10 -/

/-- Looking up a requested key in the association list that
generateMultiLead builds gives the entry computed for that key. -/
theorem lookup_map_self {β : Type} (G : String → β) (leads : List String)
    (lead : String) (h : lead ∈ leads) :
    (leads.map (fun l => (l, G l))).lookup lead = some (G lead) := by
  induction leads with
  | nil => cases h
  | cons a tl ih =>
      rw [List.map_cons]
      by_cases hla : lead = a
      · subst hla
        simp [List.lookup]
      · have b : (lead == a) = false := beq_eq_false_iff_ne.mpr hla
        simp only [List.lookup, b]
        exact ih ((List.mem_cons.mp h).resolve_left hla)

set_option maxHeartbeats 1000000

/-- C8 (confirmed): for every requested lead present in the fixed table,
generateMultiLead returns an entry equal to the base Lead-II result with
its signal multiplied pointwise by that lead's fixed scalar (I 0.8, II 1.0,
III 0.6, aVR -0.5, aVL 0.4, aVF 0.7, V1 0.3, V2 0.5, V3 0.8, V4 1.0,
V5 0.9, V6 0.7); since only the signal field is replaced, every derived
lead shares the base result's time array and samplingRate. -/
theorem C8_multilead_scaling (g : ECGGenerator ℝ) (o : ECGGeneratorOptions ℝ)
    (rng : ℕ → ℝ) (ix fuel : ℕ) (leads : List String) (lead : String)
    (c : ℚ) (hmem : lead ∈ leads) (hc : claimLeadScale lead = some c) :
    (ECGGenerator.generateMultiLead realOps g o leads rng ix fuel).lookup lead
      = some { ECGGenerator.generate realOps g o rng ix fuel with
          signal := (ECGGenerator.generate realOps g o rng ix
            fuel).signal.map (fun v => v * (c : ℝ)) } := by
  have hG : ECGGenerator.generateMultiLead realOps g o leads rng ix fuel
      = leads.map (fun l =>
          (l, ({ ECGGenerator.generate realOps g o rng ix fuel with
              signal := ((leadTransforms ℝ).lookup l).getD (fun s => s)
                (ECGGenerator.generate realOps g o rng ix fuel).signal } :
            ECGResult ℝ))) := rfl
  rw [hG, lookup_map_self _ _ _ hmem]
  unfold claimLeadScale at hc
  by_cases e1 : lead = "I"
  · rw [if_pos e1] at hc
    obtain rfl := Option.some.inj hc
    subst e1
    refine congrArg some (congrArg (fun s : List ℝ =>
      { ECGGenerator.generate realOps g o rng ix fuel with signal := s }) ?_)
    rw [show (leadTransforms ℝ).lookup "I"
        = some (fun signal : List ℝ => signal.map (fun v => v * (8/10))) from rfl]
    rw [Option.getD_some]
    refine List.map_congr_left ?_
    intro v _
    push_cast
    ring
  · rw [if_neg e1] at hc
    by_cases e2 : lead = "II"
    · rw [if_pos e2] at hc
      obtain rfl := Option.some.inj hc
      subst e2
      refine congrArg some (congrArg (fun s : List ℝ =>
        { ECGGenerator.generate realOps g o rng ix fuel with signal := s }) ?_)
      rw [show (leadTransforms ℝ).lookup "II"
          = some (fun signal : List ℝ => signal) from rfl]
      rw [Option.getD_some]
      symm
      push_cast
      simp
    · rw [if_neg e2] at hc
      by_cases e3 : lead = "III"
      · rw [if_pos e3] at hc
        obtain rfl := Option.some.inj hc
        subst e3
        refine congrArg some (congrArg (fun s : List ℝ =>
          { ECGGenerator.generate realOps g o rng ix fuel with signal := s }) ?_)
        rw [show (leadTransforms ℝ).lookup "III"
            = some (fun signal : List ℝ => signal.map (fun v => v * (6/10))) from rfl]
        rw [Option.getD_some]
        refine List.map_congr_left ?_
        intro v _
        push_cast
        ring
      · rw [if_neg e3] at hc
        by_cases e4 : lead = "aVR"
        · rw [if_pos e4] at hc
          obtain rfl := Option.some.inj hc
          subst e4
          refine congrArg some (congrArg (fun s : List ℝ =>
            { ECGGenerator.generate realOps g o rng ix fuel with signal := s }) ?_)
          rw [show (leadTransforms ℝ).lookup "aVR"
              = some (fun signal : List ℝ => signal.map (fun v => -v * (1/2))) from rfl]
          rw [Option.getD_some]
          refine List.map_congr_left ?_
          intro v _
          push_cast
          ring
        · rw [if_neg e4] at hc
          by_cases e5 : lead = "aVL"
          · rw [if_pos e5] at hc
            obtain rfl := Option.some.inj hc
            subst e5
            refine congrArg some (congrArg (fun s : List ℝ =>
              { ECGGenerator.generate realOps g o rng ix fuel with signal := s }) ?_)
            rw [show (leadTransforms ℝ).lookup "aVL"
                = some (fun signal : List ℝ => signal.map (fun v => v * (4/10))) from rfl]
            rw [Option.getD_some]
            refine List.map_congr_left ?_
            intro v _
            push_cast
            ring
          · rw [if_neg e5] at hc
            by_cases e6 : lead = "aVF"
            · rw [if_pos e6] at hc
              obtain rfl := Option.some.inj hc
              subst e6
              refine congrArg some (congrArg (fun s : List ℝ =>
                { ECGGenerator.generate realOps g o rng ix fuel with signal := s }) ?_)
              rw [show (leadTransforms ℝ).lookup "aVF"
                  = some (fun signal : List ℝ => signal.map (fun v => v * (7/10))) from rfl]
              rw [Option.getD_some]
              refine List.map_congr_left ?_
              intro v _
              push_cast
              ring
            · rw [if_neg e6] at hc
              by_cases e7 : lead = "V1"
              · rw [if_pos e7] at hc
                obtain rfl := Option.some.inj hc
                subst e7
                refine congrArg some (congrArg (fun s : List ℝ =>
                  { ECGGenerator.generate realOps g o rng ix fuel with signal := s }) ?_)
                rw [show (leadTransforms ℝ).lookup "V1"
                    = some (fun signal : List ℝ => signal.map (fun v => v * (3/10))) from rfl]
                rw [Option.getD_some]
                refine List.map_congr_left ?_
                intro v _
                push_cast
                ring
              · rw [if_neg e7] at hc
                by_cases e8 : lead = "V2"
                · rw [if_pos e8] at hc
                  obtain rfl := Option.some.inj hc
                  subst e8
                  refine congrArg some (congrArg (fun s : List ℝ =>
                    { ECGGenerator.generate realOps g o rng ix fuel with signal := s }) ?_)
                  rw [show (leadTransforms ℝ).lookup "V2"
                      = some (fun signal : List ℝ => signal.map (fun v => v * (1/2))) from rfl]
                  rw [Option.getD_some]
                  refine List.map_congr_left ?_
                  intro v _
                  push_cast
                  ring
                · rw [if_neg e8] at hc
                  by_cases e9 : lead = "V3"
                  · rw [if_pos e9] at hc
                    obtain rfl := Option.some.inj hc
                    subst e9
                    refine congrArg some (congrArg (fun s : List ℝ =>
                      { ECGGenerator.generate realOps g o rng ix fuel with signal := s }) ?_)
                    rw [show (leadTransforms ℝ).lookup "V3"
                        = some (fun signal : List ℝ => signal.map (fun v => v * (8/10))) from rfl]
                    rw [Option.getD_some]
                    refine List.map_congr_left ?_
                    intro v _
                    push_cast
                    ring
                  · rw [if_neg e9] at hc
                    by_cases e10 : lead = "V4"
                    · rw [if_pos e10] at hc
                      obtain rfl := Option.some.inj hc
                      subst e10
                      refine congrArg some (congrArg (fun s : List ℝ =>
                        { ECGGenerator.generate realOps g o rng ix fuel with signal := s }) ?_)
                      rw [show (leadTransforms ℝ).lookup "V4"
                          = some (fun signal : List ℝ => signal.map (fun v => v * 1)) from rfl]
                      rw [Option.getD_some]
                      refine List.map_congr_left ?_
                      intro v _
                      push_cast
                      ring
                    · rw [if_neg e10] at hc
                      by_cases e11 : lead = "V5"
                      · rw [if_pos e11] at hc
                        obtain rfl := Option.some.inj hc
                        subst e11
                        refine congrArg some (congrArg (fun s : List ℝ =>
                          { ECGGenerator.generate realOps g o rng ix fuel with signal := s }) ?_)
                        rw [show (leadTransforms ℝ).lookup "V5"
                            = some (fun signal : List ℝ => signal.map (fun v => v * (9/10))) from rfl]
                        rw [Option.getD_some]
                        refine List.map_congr_left ?_
                        intro v _
                        push_cast
                        ring
                      · rw [if_neg e11] at hc
                        by_cases e12 : lead = "V6"
                        · rw [if_pos e12] at hc
                          obtain rfl := Option.some.inj hc
                          subst e12
                          refine congrArg some (congrArg (fun s : List ℝ =>
                            { ECGGenerator.generate realOps g o rng ix fuel with signal := s }) ?_)
                          rw [show (leadTransforms ℝ).lookup "V6"
                              = some (fun signal : List ℝ => signal.map (fun v => v * (7/10))) from rfl]
                          rw [Option.getD_some]
                          refine List.map_congr_left ?_
                          intro v _
                          push_cast
                          ring
                        · rw [if_neg e12] at hc
                          exact absurd hc (by simp)

set_option maxHeartbeats 200000

/-- Witness for C8: requesting leads II and aVR, the aVR entry is the base
result with its signal scaled by -0.5. -/
theorem C8_witness :
    ("aVR" ∈ ["II", "aVR"])
    ∧ claimLeadScale "aVR" = some (-(1/2))
    ∧ (ECGGenerator.generateMultiLead realOps ⟨1000⟩
        ⟨some 1000, some 1, some 70, some "normal", none, none, none⟩
        ["II", "aVR"] (fun _ => 0) 0 3).lookup "aVR"
      = some { ECGGenerator.generate realOps ⟨1000⟩
            ⟨some 1000, some 1, some 70, some "normal", none, none, none⟩
            (fun _ => 0) 0 3 with
          signal := (ECGGenerator.generate realOps ⟨1000⟩
            ⟨some 1000, some 1, some 70, some "normal", none, none, none⟩
            (fun _ => 0) 0 3).signal.map
              (fun v => v * ((-(1/2) : ℚ) : ℝ)) } := by
  refine ⟨by decide, by
    unfold claimLeadScale
    rw [if_neg (by decide), if_neg (by decide), if_neg (by decide),
      if_pos rfl], ?_⟩
  exact C8_multilead_scaling ⟨1000⟩
    ⟨some 1000, some 1, some 70, some "normal", none, none, none⟩
    (fun _ => 0) 0 3 ["II", "aVR"] "aVR" (-(1/2)) (by decide)
    (by
      unfold claimLeadScale
      rw [if_neg (by decide), if_neg (by decide), if_neg (by decide),
        if_pos rfl])

/-- C10 (confirmed): for every requested lead name absent from the fixed
twelve-lead table, generateMultiLead does not fail: the entry is exactly
the base Lead-II result (identity transform), hence it shares the base
result's signal, time array, samplingRate and metadata. -/
theorem C10_unknown_lead_identity (g : ECGGenerator ℝ)
    (o : ECGGeneratorOptions ℝ) (rng : ℕ → ℝ) (ix fuel : ℕ)
    (leads : List String) (lead : String) (hmem : lead ∈ leads)
    (hmiss : (leadTransforms ℝ).lookup lead = none) :
    (ECGGenerator.generateMultiLead realOps g o leads rng ix fuel).lookup lead
      = some (ECGGenerator.generate realOps g o rng ix fuel) := by
  have hG : ECGGenerator.generateMultiLead realOps g o leads rng ix fuel
      = leads.map (fun l =>
          (l, ({ ECGGenerator.generate realOps g o rng ix fuel with
              signal := ((leadTransforms ℝ).lookup l).getD (fun s => s)
                (ECGGenerator.generate realOps g o rng ix fuel).signal } :
            ECGResult ℝ))) := rfl
  rw [hG, lookup_map_self _ _ _ hmem, hmiss]
  rfl

/-- Witness for C10 at the unknown lead name X7: the entry equals the base
result itself. -/
theorem C10_witness :
    ("X7" ∈ ["II", "X7"])
    ∧ (leadTransforms ℝ).lookup "X7" = none
    ∧ (ECGGenerator.generateMultiLead realOps ⟨1000⟩
        ⟨some 1000, some 1, some 70, some "normal", none, none, none⟩
        ["II", "X7"] (fun _ => 0) 0 3).lookup "X7"
      = some (ECGGenerator.generate realOps ⟨1000⟩
          ⟨some 1000, some 1, some 70, some "normal", none, none, none⟩
          (fun _ => 0) 0 3) := by
  refine ⟨by decide, rfl, ?_⟩
  exact C10_unknown_lead_identity ⟨1000⟩
    ⟨some 1000, some 1, some 70, some "normal", none, none, none⟩
    (fun _ => 0) 0 3 ["II", "X7"] "X7" (by decide) rfl

/-! ### Claim C7 -/

theorem sumsq_foldl_nonneg (l : List ℝ) :
    ∀ a : ℝ, 0 ≤ a → 0 ≤ l.foldl (fun s e => s + e * e) a := by
  induction l with
  | nil => intro a ha; simpa using ha
  | cons x tl ih =>
      intro a ha
      rw [List.foldl_cons]
      exact ih _ (by nlinarith [mul_self_nonneg x])

/-- C7, amended: on every attempted step the integrator's error norm is the
square root of the sum of squared elementwise differences between the
fifth- and fourth-order estimates, divided by the vector length n - that
is, the Euclidean norm over n, which equals the root-mean-square divided by
sqrt n, not the root-mean-square itself. -/
theorem C7_error_norm (f : ℝ → List ℝ → List ℝ) (t : ℝ) (y : List ℝ)
    (h : ℝ) (hn : 0 < ((rk45Step f t y h).2.2).length) :
    errorNormOf realOps (rk45Step f t y h).2.2
        = Real.sqrt (((rk45Step f t y h).2.2).foldl
            (fun s e => s + e * e) 0) / (((rk45Step f t y h).2.2).length : ℝ)
      ∧ errorNormOf realOps (rk45Step f t y h).2.2
        = claimRms ((rk45Step f t y h).2.2)
            / Real.sqrt (((rk45Step f t y h).2.2).length : ℝ) := by
  refine ⟨rfl, ?_⟩
  set e := (rk45Step f t y h).2.2 with he
  have hS : 0 ≤ e.foldl (fun s x => s + x * x) 0 :=
    sumsq_foldl_nonneg e 0 le_rfl
  have hnR : (0 : ℝ) < (e.length : ℝ) := by exact_mod_cast hn
  rw [claimRms, Real.sqrt_div hS]
  rw [errorNormOf, realOps]
  rw [div_div]
  rw [Real.mul_self_sqrt (le_of_lt hnR)]

/-- Witness for C7 on a one-dimensional zero-error step. -/
theorem C7_witness :
    0 < ((rk45Step (fun _ _ => [(0 : ℝ)]) 0 [0] 1).2.2).length
    ∧ errorNormOf realOps (rk45Step (fun _ _ => [(0 : ℝ)]) 0 [0] 1).2.2
        = claimRms ((rk45Step (fun _ _ => [(0 : ℝ)]) 0 [0] 1).2.2)
            / Real.sqrt (((rk45Step (fun _ _ => [(0 : ℝ)]) 0 [0]
                1).2.2).length : ℝ) := by
  refine ⟨?_, (C7_error_norm (fun _ _ => [(0 : ℝ)]) 0 [0] 1 ?_).2⟩ <;>
    rw [rk45Step_const] <;> norm_num

/-- The error vector of a concrete attempted step: the vector field is zero
except at the two stages evaluated at t = 1, where it returns the constants
that make the fifth/fourth-order difference exactly (3, 4). -/
theorem rk45_two_stage_error :
    (rk45Step (fun t (_ : List ℝ) => if 1 ≤ t then
        [12600/71, 16800/71] else [0, 0]) 0 [0, 0] 1).2.2 = [3, 4] := by
  norm_num [rk45Step, rk45Stages, stageY, axpyList, DP_A, DP_B, DP_C5, DP_C4,
    List.zip]

/-- Counterexample to C7 as frozen: for the attempted step of
rk45_two_stage_error the error vector is (3, 4); the integrator computes
sqrt(3^2 + 4^2) / 2 = 5/2, while the root-mean-square of (3, 4) is
sqrt(25/2), and the two differ. -/
theorem C7_counterexample :
    errorNormOf realOps
        ((rk45Step (fun t (_ : List ℝ) => if 1 ≤ t then
          [12600/71, 16800/71] else [0, 0]) 0 [0, 0] 1).2.2)
      ≠ claimRms ((rk45Step (fun t (_ : List ℝ) => if 1 ≤ t then
          [12600/71, 16800/71] else [0, 0]) 0 [0, 0] 1).2.2) := by
  rw [rk45_two_stage_error]
  have h1 : errorNormOf realOps [(3 : ℝ), 4] = 5/2 := by
    rw [errorNormOf, realOps]
    norm_num
    rw [show (25 : ℝ) = 5 ^ 2 by norm_num, Real.sqrt_sq (by norm_num)]
  have h2 : claimRms [(3 : ℝ), 4] = Real.sqrt (25/2) := by
    rw [claimRms]
    norm_num
  rw [h1, h2]
  intro heq
  have hsq := congrArg (fun x : ℝ => x ^ 2) heq
  simp only at hsq
  rw [Real.sq_sqrt (by norm_num : (0:ℝ) ≤ 25/2)] at hsq
  norm_num at hsq

/-! ### Claim C6 -/

/-- C6, amended: with h the step clamped at tf and e the error norm of the
attempted RK45 step, the step is accepted exactly when e < tolerance or
h is already at (or below) the minimum step size.  On acceptance, time and
state advance, the new point is recorded, and h is grown by
min(2.0, 0.9 * (tolerance/e)^0.2) bounded above by the maximum step size -
but only when e > 0: a zero-error accepted step keeps its step size
unchanged, which the claim as frozen does not allow for.  On rejection, h
is shrunk by max(0.1, 0.9 * (tolerance/e)^0.25) bounded below by the
minimum step size and nothing advances or is recorded. -/
theorem C6_step_control (f : ℝ → List ℝ → List ℝ)
    (tf tol minStep maxStep : ℝ) (st : SolveState ℝ) (h' e : ℝ)
    (hh : h' = if st.currentT + st.stepSize > tf then tf - st.currentT
        else st.stepSize)
    (he : e = errorNormOf realOps (rk45Step f st.currentT st.currentY
        h').2.2) :
    ((e < tol ∨ h' ≤ minStep) →
        solveStepIter realOps f tf tol minStep maxStep st
          = ⟨st.currentT + h', (rk45Step f st.currentT st.currentY h').1,
             (if 0 < e then min maxStep (h' * claimGrowthFactor tol e)
              else h'),
             st.tResult ++ [st.currentT + h'],
             st.yResult ++ [(rk45Step f st.currentT st.currentY h').1]⟩)
    ∧ (¬(e < tol ∨ h' ≤ minStep) →
        solveStepIter realOps f tf tol minStep maxStep st
          = ⟨st.currentT, st.currentY,
             max minStep (h' * max (1/10)
               (9/10 * Real.rpow (tol / e) (1/4))),
             st.tResult, st.yResult⟩) := by
  subst hh
  subst he
  constructor <;> intro hc
  · unfold solveStepIter
    rw [if_pos hc]
    simp only [claimGrowthFactor, realOps]
  · unfold solveStepIter
    rw [if_neg hc]
    simp only [realOps]

/-- Witness for C6 on a concrete accepted zero-error step: the step size
is left unchanged (the errorNorm > 0 guard). -/
theorem C6_witness :
    ((1/2 : ℝ) = if (0 : ℝ) + 1/2 > 10 then (10 : ℝ) - 0 else 1/2)
    ∧ ((0 : ℝ) = errorNormOf realOps
        (rk45Step (fun _ _ => [(1 : ℝ)]) 0 [0] (1/2)).2.2)
    ∧ (solveStepIter realOps (fun _ _ => [(1 : ℝ)]) 10 1 (1/100000000) 5
          ⟨0, [0], 1/2, [0], [[0]]⟩).stepSize
        = (if (0 : ℝ) < 0 then min 5 ((1/2) * claimGrowthFactor 1 0)
           else 1/2) := by
  have hh : (1/2 : ℝ) = if (0 : ℝ) + 1/2 > 10 then (10 : ℝ) - 0 else 1/2 := by
    norm_num
  have he : (0 : ℝ) = errorNormOf realOps
      (rk45Step (fun _ _ => [(1 : ℝ)]) 0 [0] (1/2)).2.2 := by
    rw [rk45Step_const]
    norm_num [errorNormOf, realOps]
  refine ⟨hh, he, ?_⟩
  have h := (C6_step_control (fun _ _ => [(1 : ℝ)]) 10 1 (1/100000000) 5
    ⟨0, [0], 1/2, [0], [[0]]⟩ (1/2) 0 hh he).1 (Or.inl (by norm_num))
  rw [h]

/-- Counterexample to C6 as frozen: a concrete accepted step with error
norm zero.  The code leaves the step size at 1/2, while the growth the
claim prescribes for every acceptance, min(maxStep, h * min(2.0,
0.9 * (tolerance/errorNorm)^0.2)), evaluates at errorNorm = 0 to
min(5, 1/2 * min(2, 0.9 * (1/0)^0.2)) = 0 under the total real division of
the embedding (and to min(5, 1/2 * 2) = 1 under the JavaScript limit
reading 1/0 = Infinity); under either reading it differs from 1/2. -/
theorem C6_counterexample :
    (solveStepIter realOps (fun _ _ => [(1 : ℝ)]) 10 1 (1/100000000) 5
        ⟨0, [0], 1/2, [0], [[0]]⟩).stepSize = 1/2
    ∧ errorNormOf realOps
        (rk45Step (fun _ _ => [(1 : ℝ)]) 0 [0] (1/2)).2.2 = 0
    ∧ min (5 : ℝ) ((1/2) * claimGrowthFactor 1 0) = 0
    ∧ min (5 : ℝ) ((1/2) * 2) = 1
    ∧ ((1/2 : ℝ) ≠ 0 ∧ (1/2 : ℝ) ≠ 1) := by
  refine ⟨?_, ?_, ?_, by norm_num, by norm_num, by norm_num⟩
  · norm_num [solveStepIter, rk45Step_const, errorNormOf, realOps]
  · rw [rk45Step_const]
    norm_num [errorNormOf, realOps]
  · rw [claimGrowthFactor]
    rw [show (1 : ℝ) / 0 = 0 from by norm_num]
    rw [show Real.rpow (0 : ℝ) (1/5) = (0 : ℝ) ^ ((1/5 : ℝ)) from rfl]
    rw [Real.zero_rpow (by norm_num)]
    norm_num

/-! ### Ordering of the generated time grid (claim C2) -/

theorem pairwise_head_le (l : List α) (a : α)
    (hp : l.Pairwise (· ≤ ·)) (hh : l.head? = some a) :
    ∀ x ∈ l, a ≤ x := by
  cases l with
  | nil => simp at hh
  | cons b tl =>
      simp only [List.head?_cons, Option.some.injEq] at hh
      subst hh
      intro x hx
      rcases List.mem_cons.mp hx with rfl | hx
      · exact le_refl x
      · exact List.rel_of_pairwise_cons hp hx

theorem stepIterCase_inv (ops : MathOps α) (f : α → List α → List α)
    (tf tolerance minStepSize maxStep t0 : α) (st : SolveState α) (hs : α)
    (hpow : ∀ x y : α, 0 < x → 0 ≤ ops.powf x y)
    (htol : 0 < tolerance) (hmin : 0 ≤ minStepSize) (hmax : 0 ≤ maxStep)
    (hh0 : 0 ≤ hs) (hle : st.currentT + hs ≤ tf)
    (hpw : st.tResult.Pairwise (· ≤ ·)) (hhd : st.tResult.head? = some t0)
    (hub : ∀ x ∈ st.tResult, x ≤ st.currentT) :
    LoopInv t0 tf
      (if errorNormOf ops (rk45Step f st.currentT st.currentY hs).2.2 < tolerance
          ∨ hs ≤ minStepSize then
        ⟨st.currentT + hs, (rk45Step f st.currentT st.currentY hs).1,
          if errorNormOf ops (rk45Step f st.currentT st.currentY hs).2.2 > 0 then
            min maxStep (hs * min 2 (9/10 * ops.powf
              (tolerance / errorNormOf ops (rk45Step f st.currentT st.currentY hs).2.2) (1/5)))
          else hs,
          st.tResult ++ [st.currentT + hs],
          st.yResult ++ [(rk45Step f st.currentT st.currentY hs).1]⟩
      else
        ⟨st.currentT, st.currentY,
          max minStepSize (hs * max (1/10) (9/10 * ops.powf
            (tolerance / errorNormOf ops (rk45Step f st.currentT st.currentY hs).2.2) (1/4))),
          st.tResult, st.yResult⟩) := by
  obtain ⟨l, hl⟩ : ∃ l, st.tResult = t0 :: l := by
    cases hhh : st.tResult with
    | nil => rw [hhh] at hhd; simp at hhd
    | cons a l =>
        rw [hhh] at hhd
        simp only [List.head?_cons, Option.some.injEq] at hhd
        exact ⟨l, by rw [hhd]⟩
  split
  · refine ⟨?_, ?_, ?_, ?_, hle⟩
    · dsimp only
      rw [List.pairwise_append]
      refine ⟨hpw, List.pairwise_singleton _ _, ?_⟩
      intro a ha b hb
      rw [List.mem_singleton] at hb
      subst hb
      exact le_trans (hub a ha) (by linarith)
    · dsimp only
      rw [hl]
      rfl
    · dsimp only
      intro x hx
      rcases List.mem_append.mp hx with hx | hx
      · exact le_trans (hub x hx) (by linarith)
      · rw [List.mem_singleton] at hx
        subst hx
        exact le_refl _
    · dsimp only
      split
      · rename_i hepos
        refine le_min hmax ?_
        refine mul_nonneg hh0 (le_min (by norm_num) ?_)
        exact mul_nonneg (by norm_num) (hpow _ _ (div_pos htol hepos))
      · exact hh0
  · exact ⟨hpw, hhd, hub, le_trans hmin (le_max_left _ _), by linarith⟩

theorem solveStepIter_inv (ops : MathOps α) (f : α → List α → List α)
    (tf tolerance minStepSize maxStep t0 : α) (st : SolveState α)
    (hpow : ∀ x y : α, 0 < x → 0 ≤ ops.powf x y)
    (htol : 0 < tolerance) (hmin : 0 ≤ minStepSize) (hmax : 0 ≤ maxStep)
    (hlt : st.currentT < tf) (hinv : LoopInv t0 tf st) :
    LoopInv t0 tf (solveStepIter ops f tf tolerance minStepSize maxStep st) := by
  obtain ⟨hpw, hhd, hub, hss, htf⟩ := hinv
  have hh0 : 0 ≤ (if st.currentT + st.stepSize > tf then tf - st.currentT
      else st.stepSize) := by
    split
    · linarith
    · exact hss
  have hle : st.currentT + (if st.currentT + st.stepSize > tf then
      tf - st.currentT else st.stepSize) ≤ tf := by
    split
    · linarith
    · rename_i hng
      push_neg at hng
      linarith
  exact stepIterCase_inv ops f tf tolerance minStepSize maxStep t0 st _
    hpow htol hmin hmax hh0 hle hpw hhd hub

theorem solveLoop_inv (ops : MathOps α) (f : α → List α → List α)
    (tf tolerance minStepSize maxStep t0 : α) (fuel : ℕ) (st : SolveState α)
    (hpow : ∀ x y : α, 0 < x → 0 ≤ ops.powf x y)
    (htol : 0 < tolerance) (hmin : 0 ≤ minStepSize) (hmax : 0 ≤ maxStep)
    (hinv : LoopInv t0 tf st) :
    LoopInv t0 tf (solveLoop ops f tf tolerance minStepSize maxStep fuel st) := by
  induction fuel generalizing st with
  | zero => exact hinv
  | succ n ih =>
      rw [solveLoop]
      split
      · exact ih _ (solveStepIter_inv ops f tf tolerance minStepSize maxStep
          t0 st hpow htol hmin hmax (by assumption) hinv)
      · exact hinv

theorem uniformGrid_sorted (t0 d : α) (n : ℤ) (hd : 0 ≤ d) :
    (uniformGrid t0 d n).Pairwise (· ≤ ·)
    ∧ (∀ x ∈ uniformGrid t0 d n, t0 ≤ x ∧ x ≤ t0 + d)
    ∧ (0 < n → (uniformGrid t0 d n).head? = some t0) := by
  by_cases hn0 : n.toNat = 0
  · refine ⟨?_, ?_, fun hn => absurd hn (by omega)⟩ <;>
      simp [uniformGrid, hn0]
  · have hn1 : 1 ≤ n := by omega
    have hq0 : (0 : α) ≤ (n : α) - 1 := by
      have h1 : (1 : α) ≤ (n : α) := by exact_mod_cast hn1
      linarith
    have hc0 : 0 ≤ d / ((n : α) - 1) := div_nonneg hd hq0
    have hcast : ((n.toNat : ℕ) : α) = (n : α) := by
      have : ((n.toNat : ℤ) : α) = (n : α) := by
        rw [Int.toNat_of_nonneg (by omega)]
      exact_mod_cast this
    have hub : ∀ i : ℕ, i < n.toNat → (i : α) * (d / ((n : α) - 1)) ≤ d := by
      intro i hi
      rcases eq_or_lt_of_le hq0 with hq | hq
      · rw [← hq, div_zero, mul_zero]
        exact hd
      · have hiq : (i : α) ≤ (n : α) - 1 := by
          have : (i : α) + 1 ≤ (n.toNat : α) := by exact_mod_cast hi
          rw [hcast] at this
          linarith
        calc (i : α) * (d / ((n : α) - 1))
            ≤ ((n : α) - 1) * (d / ((n : α) - 1)) :=
              mul_le_mul_of_nonneg_right hiq hc0
          _ = d := by field_simp
    refine ⟨?_, ?_, ?_⟩
    · unfold uniformGrid
      rw [List.pairwise_map]
      refine (List.pairwise_lt_range n.toNat).imp ?_
      intro a b hab
      have hab' : (a : α) ≤ (b : α) := by exact_mod_cast le_of_lt hab
      have := mul_le_mul_of_nonneg_right hab' hc0
      rw [mul_div_assoc, mul_div_assoc]
      linarith
    · intro x hx
      unfold uniformGrid at hx
      obtain ⟨i, hi, rfl⟩ := List.mem_map.mp hx
      rw [List.mem_range] at hi
      constructor
      · have : 0 ≤ (i : α) * (d / ((n : α) - 1)) :=
          mul_nonneg (Nat.cast_nonneg i) hc0
        rw [mul_div_assoc]
        linarith
      · have := hub i hi
        rw [mul_div_assoc]
        linarith
    · intro _
      obtain ⟨m, hm⟩ : ∃ m, n.toNat = m + 1 := ⟨n.toNat - 1, by omega⟩
      unfold uniformGrid
      rw [hm, List.range_succ_eq_map]
      simp

/-! ### Sortedness of the solver time grid -/

theorem solveLoop_time_props (ops : MathOps α) (f : α → List α → List α)
    (t0 tf tol minS M : α) (ics : List α) (fuel : ℕ)
    (hpow : ∀ x y : α, 0 < x → 0 ≤ ops.powf x y)
    (htol : 0 < tol) (hmin : 0 ≤ minS) (hM : 0 ≤ M) (hspan : t0 ≤ tf) :
    (solveLoop ops f tf tol minS M fuel
        ⟨t0, ics, M, [t0], [ics]⟩).tResult.Pairwise (· ≤ ·)
    ∧ (∀ x ∈ (solveLoop ops f tf tol minS M fuel
        ⟨t0, ics, M, [t0], [ics]⟩).tResult, t0 ≤ x ∧ x ≤ tf)
    ∧ (solveLoop ops f tf tol minS M fuel
        ⟨t0, ics, M, [t0], [ics]⟩).tResult.head? = some t0 := by
  obtain ⟨hp, hh, hub, -, hctf⟩ := solveLoop_inv ops f tf tol minS M t0 fuel
    ⟨t0, ics, M, [t0], [ics]⟩ hpow htol hmin hM
    ⟨List.pairwise_singleton _ _, rfl, by simp, hM, hspan⟩
  exact ⟨hp,
    fun x hx => ⟨pairwise_head_le _ _ hp hh x hx, le_trans (hub x hx) hctf⟩,
    hh⟩

theorem ifInterp_time_props (t : List α) (y : List (List α)) (t0 tf : α)
    (n : ℤ) (hn1 : 1 ≤ n) (hspan : t0 ≤ tf)
    (ht : t.Pairwise (· ≤ ·)) (hbt : ∀ x ∈ t, t0 ≤ x ∧ x ≤ tf)
    (hht : t.head? = some t0) :
    ((if n ≠ 0 ∧ (t.length : ℤ) ≠ n then
        (uniformGrid t0 (tf - t0) n,
         interpolateMulti t y (uniformGrid t0 (tf - t0) n))
      else (t, y)).1.Pairwise (· ≤ ·))
    ∧ (∀ x ∈ (if n ≠ 0 ∧ (t.length : ℤ) ≠ n then
        (uniformGrid t0 (tf - t0) n,
         interpolateMulti t y (uniformGrid t0 (tf - t0) n))
      else (t, y)).1, t0 ≤ x ∧ x ≤ tf)
    ∧ (if n ≠ 0 ∧ (t.length : ℤ) ≠ n then
        (uniformGrid t0 (tf - t0) n,
         interpolateMulti t y (uniformGrid t0 (tf - t0) n))
      else (t, y)).1.head? = some t0 := by
  split
  · obtain ⟨hp, hb, hh⟩ := uniformGrid_sorted t0 (tf - t0) n (by linarith)
    exact ⟨hp,
      fun x hx => ⟨(hb x hx).1, by have := (hb x hx).2; linarith⟩,
      hh (by omega)⟩
  · exact ⟨ht, hbt, hht⟩

theorem solveODE_time_props (ops : MathOps α) (f : α → List α → List α)
    (o : ODESolverOptions α) (fuel : ℕ) (n : ℤ)
    (hpow : ∀ x y : α, 0 < x → 0 ≤ ops.powf x y)
    (htol : 0 < o.tolerance.getD (1/1000000))
    (hn : o.timePoints = some n) (hn1 : 1 ≤ n)
    (hmaxs : o.maxStepSize = none) (hmins : o.minStepSize = none)
    (hspan : o.timeSpan.1 ≤ o.timeSpan.2) :
    (solveODE ops f o fuel).1.Pairwise (· ≤ ·)
    ∧ (∀ x ∈ (solveODE ops f o fuel).1,
        o.timeSpan.1 ≤ x ∧ x ≤ o.timeSpan.2)
    ∧ (solveODE ops f o fuel).1.head? = some o.timeSpan.1 := by
  have hd0 : 0 ≤ o.timeSpan.2 - o.timeSpan.1 := sub_nonneg.mpr hspan
  have hq0 : (0:α) ≤ (n:α) - 1 := by
    have h1 : (1:α) ≤ (n:α) := by exact_mod_cast hn1
    linarith
  have hM0 : 0 ≤ (if (o.timeSpan.2 - o.timeSpan.1) / ((n:α) - 1) ≠ 0
      then (o.timeSpan.2 - o.timeSpan.1) / ((n:α) - 1) / 2
      else (1/100 : α)) := by
    split
    · have := div_nonneg hd0 hq0
      linarith
    · norm_num
  obtain ⟨hp, hb, hh⟩ := solveLoop_time_props ops f o.timeSpan.1 o.timeSpan.2
    (o.tolerance.getD (1/1000000)) (1/100000000) _ o.initialConditions fuel
    hpow htol (by norm_num) hM0 hspan
  simp only [solveODE, hn, hmaxs, hmins, Option.getD_none, Option.getD_some,
    Option.isSome_some, eq_self_iff_true, true_and]
  exact ifInterp_time_props _ _ _ _ _ hn1 hspan hp hb hh

theorem ifInterp_len_eq (t : List α) (y : List (List α)) (t0 dur : α)
    (n : ℤ) (hty : y.length = t.length) :
    (if n ≠ 0 ∧ (t.length : ℤ) ≠ n then
        (uniformGrid t0 dur n, interpolateMulti t y (uniformGrid t0 dur n))
      else (t, y)).2.length
    = (if n ≠ 0 ∧ (t.length : ℤ) ≠ n then
        (uniformGrid t0 dur n, interpolateMulti t y (uniformGrid t0 dur n))
      else (t, y)).1.length := by
  split
  · exact interpolateMulti_length _ _ _
  · exact hty

theorem solveODE_len_eq (ops : MathOps α) (f : α → List α → List α)
    (o : ODESolverOptions α) (fuel : ℕ) :
    (solveODE ops f o fuel).2.length = (solveODE ops f o fuel).1.length := by
  unfold solveODE
  cases htp : o.timePoints with
  | none =>
      exact solveLoop_len_eq _ _ _ _ _ _ _ _ rfl
  | some n =>
      dsimp only
      refine ifInterp_len_eq _ _ _ _ _ ?_
      apply solveLoop_len_eq
      rfl

theorem generateECGSyn_len_eq (ops : MathOps α) (d sr : α)
    (params : ECGSynParameters α) (tol : α) (fuel : ℕ) :
    (generateECGSyn ops d sr params tol fuel).2.length
      = (generateECGSyn ops d sr params tol fuel).1.length := by
  unfold generateECGSyn
  dsimp only
  rw [List.length_map]
  exact solveODE_len_eq _ _ _ _

theorem generateECGSyn_time_props (ops : MathOps α) (d sr : α)
    (params : ECGSynParameters α) (tol : α) (fuel : ℕ)
    (hpow : ∀ x y : α, 0 < x → 0 ≤ ops.powf x y)
    (htol : 0 < tol) (hd : 0 < d) (hsr : 0 < sr) :
    (generateECGSyn ops d sr params tol fuel).1.Pairwise (· ≤ ·)
    ∧ (∀ x ∈ (generateECGSyn ops d sr params tol fuel).1, 0 ≤ x ∧ x ≤ d)
    ∧ (generateECGSyn ops d sr params tol fuel).1.head? = some 0 := by
  have h1 : (1:ℤ) ≤ ⌈d * sr⌉ := by
    have h0 : (0:ℤ) < ⌈d * sr⌉ := Int.ceil_pos.mpr (mul_pos hd hsr)
    omega
  unfold generateECGSyn
  dsimp only
  exact solveODE_time_props ops _ _ fuel ⌈d * sr⌉ hpow htol rfl h1 rfl rfl
    (le_of_lt hd)

theorem realOps_powf_nonneg : ∀ x y : ℝ, 0 < x → 0 ≤ realOps.powf x y :=
  fun x y hx => Real.rpow_nonneg hx.le y

theorem generate_len_eq (ops : MathOps α) (g : ECGGenerator α)
    (o : ECGGeneratorOptions α) (rng : ℕ → α) (ix fuel : ℕ) :
    (ECGGenerator.generate ops g o rng ix fuel).signal.length
      = (ECGGenerator.generate ops g o rng ix fuel).time.length := by
  unfold ECGGenerator.generate ECGGenerator.generateRun
  dsimp only
  rw [noiseStage_length _ _ _ _ _ _
    (postProcess_len_eq _ _ _ _ _ (generateECGSyn_len_eq _ _ _ _ _ _) _ _ _ _)]
  exact postProcess_len_eq _ _ _ _ _ (generateECGSyn_len_eq _ _ _ _ _ _) _ _ _ _

theorem generate_time_props (g : ECGGenerator ℝ) (o : ECGGeneratorOptions ℝ)
    (rng : ℕ → ℝ) (ix fuel : ℕ)
    (hd0 : 0 < resolvedDuration o)
    (hsr0 : 0 < resolvedSamplingRate g o)
    (htol : 0 < resolvedTolerance o)
    (hpath : resolvedPathology o ≠ "atrialFibrillation") :
    (ECGGenerator.generate realOps g o rng ix fuel).time.Pairwise (· ≤ ·)
    ∧ (∀ x ∈ (ECGGenerator.generate realOps g o rng ix fuel).time,
        0 ≤ x ∧ x ≤ resolvedDuration o)
    ∧ (ECGGenerator.generate realOps g o rng ix fuel).time.head? = some 0 := by
  unfold ECGGenerator.generate ECGGenerator.generateRun
  dsimp only
  rw [postProcess_time realOps g.samplingRate _ hpath]
  exact generateECGSyn_time_props realOps _ _ _ _ fuel realOps_powf_nonneg
    htol hd0 hsr0

/-! ### C2: equal lengths and time ordering -/

/-- C2: the claim asserts that for every generate call, with any pathology
including atrialFibrillation, time and signal have equal length and time is
ordered.  The equal-length half holds for every pathology; the ordering
half holds for every pathology except atrialFibrillation, whose irregular
resampling emits out-of-order time stamps (see the counterexample).  This
theorem proves the corrected statement: lengths always agree, and outside
the atrialFibrillation path the time array is sorted. -/
theorem C2_generate_time_ordering (g : ECGGenerator ℝ)
    (o : ECGGeneratorOptions ℝ) (rng : ℕ → ℝ) (ix fuel : ℕ)
    (hd0 : 0 < resolvedDuration o)
    (hsr0 : 0 < resolvedSamplingRate g o)
    (htol : 0 < resolvedTolerance o) :
    (ECGGenerator.generate realOps g o rng ix fuel).time.length
      = (ECGGenerator.generate realOps g o rng ix fuel).signal.length
    ∧ (resolvedPathology o ≠ "atrialFibrillation" →
        (ECGGenerator.generate realOps g o rng ix fuel).time.Pairwise
          (· ≤ ·)) :=
  ⟨(generate_len_eq realOps g o rng ix fuel).symm,
   fun hpath => (generate_time_props g o rng ix fuel hd0 hsr0 htol hpath).1⟩

/-- Witness for C2 at a concrete input: the default options on a 250 Hz
generator satisfy every hypothesis, and the conclusion holds there. -/
theorem C2_witness :
    ((0:ℝ) < resolvedDuration
        (⟨none, none, none, none, none, none, none⟩ : ECGGeneratorOptions ℝ)
      ∧ (0:ℝ) < resolvedSamplingRate (⟨250⟩ : ECGGenerator ℝ)
          (⟨none, none, none, none, none, none, none⟩ : ECGGeneratorOptions ℝ)
      ∧ (0:ℝ) < resolvedTolerance
          (⟨none, none, none, none, none, none, none⟩ : ECGGeneratorOptions ℝ))
    ∧ ((ECGGenerator.generate realOps ⟨250⟩
          ⟨none, none, none, none, none, none, none⟩ (fun _ => 0) 0 3).time.length
        = (ECGGenerator.generate realOps ⟨250⟩
            ⟨none, none, none, none, none, none, none⟩ (fun _ => 0) 0 3).signal.length
      ∧ (resolvedPathology
            (⟨none, none, none, none, none, none, none⟩ : ECGGeneratorOptions ℝ)
              ≠ "atrialFibrillation" →
          (ECGGenerator.generate realOps ⟨250⟩
            ⟨none, none, none, none, none, none, none⟩
            (fun _ => 0) 0 3).time.Pairwise (· ≤ ·))) :=
  ⟨⟨by norm_num [resolvedDuration], by norm_num [resolvedSamplingRate],
    by norm_num [resolvedTolerance]⟩,
   C2_generate_time_ordering ⟨250⟩ ⟨none, none, none, none, none, none, none⟩
     (fun _ => 0) 0 3 (by norm_num [resolvedDuration])
     (by norm_num [resolvedSamplingRate]) (by norm_num [resolvedTolerance])⟩

set_option maxHeartbeats 1600000

/-- Counterexample for C2's ordering half on the atrialFibrillation path:
makeIrregular, fed a sorted 4-sample 250 Hz time grid, a 7500 bpm base
heart rate (avgRR = 1/125 s, i.e. two samples per beat) and the constant
random draw 9/11, emits the time array [0, 1/250, 0, 13/1250], which is
not ordered (its second entry exceeds its third). -/
theorem C2_counterexample :
    ¬ ((makeIrregular (250:ℚ) [0, 1/250, 2/250, 3/250] [0, 0, 0, 0] 7500
        (fun _ => 9/11) 0 3).1.Pairwise (· ≤ ·)) := by
  have hf0 : ⌊(0:ℚ)⌋ = 0 := Int.floor_zero
  have hfh : ⌊(1/2:ℚ)⌋ = 0 := by
    rw [Int.floor_eq_iff] <;> norm_num
  have hf1 : ⌊(1:ℚ)⌋ = 1 := Int.floor_one
  have hf32 : ⌊(3/2:ℚ)⌋ = 1 := by
    rw [Int.floor_eq_iff] <;> norm_num
  have hf2 : ⌊(2:ℚ)⌋ = 2 := by
    rw [Int.floor_eq_iff] <;> norm_num
  have ht2 : Int.toNat 2 = 2 := rfl
  have ht4 : Int.toNat 4 = 4 := rfl
  have hlist : (makeIrregular (250:ℚ) [0, 1/250, 2/250, 3/250] [0, 0, 0, 0]
      7500 (fun _ => 9/11) 0 3).1 = [0, 1/250, 0, 13/1250] := by
    norm_num [makeIrregular, makeIrregularLoop, copySegment, jsMod, jsTrunc,
      List.getD_cons_zero, List.getD_cons_succ, ht2, ht4,
      List.getElem_cons_zero, List.getElem_cons_succ,
      List.getElem?_cons_zero, List.getElem?_cons_succ, Option.getD_some,
      hf0, hfh, hf1, hf32, hf2]
  rw [hlist]
  intro hp
  have h1 := (List.pairwise_cons.mp hp).2
  have h2 := (List.pairwise_cons.mp h1).1 0 (by simp)
  norm_num at h2

set_option maxHeartbeats 200000

/-! ### C9: streaming chunk contiguity -/

theorem streamState_fst (ops : MathOps α) (g : ECGGenerator α)
    (o : ECGGeneratorOptions α) (c : α) (rng : ℕ → α) (ix0 fuel : ℕ)
    (hdur : o.duration = none) (k : ℕ) :
    (streamState ops g o c rng ix0 fuel k).1 = (k : α) * c := by
  induction k with
  | zero => simp [streamState]
  | succ n ih =>
      have hcont : streamContinue o
          (streamState ops g o c rng ix0 fuel n).1 = true := by
        simp [streamContinue, resolvedTotalDuration, hdur]
      have hcd : chunkDurationAt o c
          (streamState ops g o c rng ix0 fuel n).1 = c := by
        simp [chunkDurationAt, resolvedTotalDuration, hdur]
      rw [streamState]
      dsimp only
      rw [if_pos hcont]
      dsimp only
      rw [hcd, ih]
      push_cast
      ring

/-- C9: for an unbounded stream (no total duration) with a positive chunk
duration, the k-th pull always yields a chunk (the iteration never
terminates), and outside the atrialFibrillation path that chunk's time
array starts exactly at k * chunkDuration, stays within
[k * chunkDuration, (k+1) * chunkDuration], and is sorted: consecutive
chunks cover contiguous, monotonically increasing time ranges. -/
theorem C9_stream_contiguous (g : ECGGenerator ℝ) (o : ECGGeneratorOptions ℝ)
    (c : ℝ) (rng : ℕ → ℝ) (ix0 fuel k : ℕ)
    (hdur : o.duration = none) (hc : 0 < c)
    (hsr0 : 0 < resolvedSamplingRate g o)
    (htol : 0 < resolvedTolerance o)
    (hpath : resolvedPathology o ≠ "atrialFibrillation") :
    ∃ r : ECGResult ℝ,
      streamNth realOps g o c rng ix0 fuel k = some r
      ∧ r.time.head? = some ((k : ℝ) * c)
      ∧ (∀ t ∈ r.time, (k : ℝ) * c ≤ t ∧ t ≤ (k : ℝ) * c + c)
      ∧ r.time.Pairwise (· ≤ ·) := by
  have hfst : (streamState realOps g o c rng ix0 fuel k).1 = (k : ℝ) * c :=
    streamState_fst realOps g o c rng ix0 fuel hdur k
  have hcont : streamContinue o
      (streamState realOps g o c rng ix0 fuel k).1 = true := by
    simp [streamContinue, resolvedTotalDuration, hdur]
  have hcd : chunkDurationAt o c
      (streamState realOps g o c rng ix0 fuel k).1 = c := by
    simp [chunkDurationAt, resolvedTotalDuration, hdur]
  obtain ⟨hpw, hbnd, hhd⟩ := generate_time_props g { o with duration := some c }
    rng (streamState realOps g o c rng ix0 fuel k).2 fuel hc hsr0 htol hpath
  have e : ECGGenerator.generate realOps g { o with duration := some c } rng
      (streamState realOps g o c rng ix0 fuel k).2 fuel
      = (ECGGenerator.generateRun realOps g { o with duration := some c } rng
          (streamState realOps g o c rng ix0 fuel k).2 fuel).1 := rfl
  rw [e] at hpw hbnd hhd
  unfold streamNth
  dsimp only
  rw [if_pos hcont, hcd]
  refine ⟨_, rfl, ?_, ?_, ?_⟩
  · dsimp only
    rw [List.head?_map, hhd]
    simp [hfst]
  · dsimp only
    intro t ht
    obtain ⟨x, hxmem, rfl⟩ := List.mem_map.mp ht
    obtain ⟨hx0, hxd⟩ := hbnd x hxmem
    have hxc : x ≤ c := hxd
    rw [hfst]
    constructor
    · linarith
    · linarith
  · dsimp only
    rw [List.pairwise_map]
    exact hpw.imp (fun h => add_le_add_right h _)

/-- Witness for C9 at a concrete input: the default options with
chunkDuration 1 on a 250 Hz generator satisfy every hypothesis at the third
pull (k = 2), and the conclusion holds there. -/
theorem C9_witness :
    ((⟨none, none, none, none, none, none, none⟩ :
        ECGGeneratorOptions ℝ).duration = none
      ∧ (0:ℝ) < 1
      ∧ (0:ℝ) < resolvedSamplingRate (⟨250⟩ : ECGGenerator ℝ)
          (⟨none, none, none, none, none, none, none⟩ : ECGGeneratorOptions ℝ)
      ∧ (0:ℝ) < resolvedTolerance
          (⟨none, none, none, none, none, none, none⟩ : ECGGeneratorOptions ℝ)
      ∧ resolvedPathology
          (⟨none, none, none, none, none, none, none⟩ : ECGGeneratorOptions ℝ)
            ≠ "atrialFibrillation")
    ∧ ∃ r : ECGResult ℝ,
        streamNth realOps ⟨250⟩ ⟨none, none, none, none, none, none, none⟩ 1
          (fun _ => 0) 0 0 2 = some r
        ∧ r.time.head? = some (((2:ℕ) : ℝ) * 1)
        ∧ (∀ t ∈ r.time, ((2:ℕ) : ℝ) * 1 ≤ t ∧ t ≤ ((2:ℕ) : ℝ) * 1 + 1)
        ∧ r.time.Pairwise (· ≤ ·) :=
  ⟨⟨rfl, by norm_num, by norm_num [resolvedSamplingRate],
    by norm_num [resolvedTolerance], by simp [resolvedPathology]⟩,
   C9_stream_contiguous ⟨250⟩ ⟨none, none, none, none, none, none, none⟩ 1
     (fun _ => 0) 0 0 2 rfl (by norm_num)
     (by norm_num [resolvedSamplingRate]) (by norm_num [resolvedTolerance])
     (by simp [resolvedPathology])⟩

end ECG
